import Mathlib

/-!
Verification development for the infestor syntax-tree code-mutation engine
(`python/infestor` in the repository).

The engine parses a Python source file with libcst, locates reporter imports,
reporter calls, reporter decorators and except handlers, and applies
tree-rewrite operations.  We embed the fragment of the libcst concrete syntax
tree that the engine's visitors, matchers and transformers actually inspect:

* a module is a header (leading comment/blank lines kept in libcst's
  `Module.header`) plus a list of statements;
* a statement is a simple statement line (a list of small statements), a
  function definition with decorators, a class definition, a try statement
  with a list of except handlers, or (as a constructor of the same type, so
  that child lists stay uniform) an except handler;
* small statements are `import` statements, `from ... import ...` statements
  with dot-relative levels and aliases, expression statements, `pass`, or an
  opaque statement;
* expressions are names, `Name.attr` attribute accesses, calls, or opaque
  expressions — exactly the shapes libcst matchers in `transformers.py` and
  `visitors.py` discriminate on.

Line-number bookkeeping mirrors libcst's `PositionProvider` syntactic
positions: each statement records how many leading (blank/comment) lines
precede it and, for simple statement lines, how many source lines the line
spans; a function definition's syntactic position starts at the `def` keyword,
after its leading lines and its decorator lines (libcst renders leading lines
and decorators before opening the node's syntactic position record, which is
also why `manager.add_decorators` shifts line numbers by one after adding a
decorator line).
-/

/-- An import alias `name` or `name as asname` inside an import-from
statement. -/
structure ImportAlias where
  name : String
  asname : Option String
deriving DecidableEq

/-- Expressions, restricted to the shapes the engine's libcst matchers
discriminate on: names, attribute accesses whose base is a plain name
(`m.Attribute(value=m.Name(...), attr=m.Name(...))`), calls, and opaque
expressions the engine never matches. -/
inductive Expr
| name (s : String)
| attr (base : String) (attrName : String)
| call (func : Expr) (args : List Expr)
| opaque2 (tag : Nat)

/-- Small statements: the members of a libcst `SimpleStatementLine.body`. -/
inductive SmallStmt
| importNames (names : List String)
| importFrom (dots : Nat) (module : List String) (names : List ImportAlias)
| exprStmt (e : Expr)
| passStmt
| opaqueSmall (tag : Nat)

/-- Statements.  `simple leading height body` is a libcst
`SimpleStatementLine` preceded by `leading` blank/comment lines and spanning
`height` source lines.  `handler` encodes a libcst `ExceptHandler`
(`type`, `name` as-binding, body); handlers appear only in the `handlers`
list of a `tryStmt`, but making them statements keeps all child lists at one
type. -/
inductive Stmt
| simple (leading height : Nat) (body : List SmallStmt)
| funcdef (leading : Nat) (decorators : List Expr) (name : String) (body : List Stmt)
| classdef (leading : Nat) (name : String) (body : List Stmt)
| tryStmt (leading : Nat) (body : List Stmt) (handlers : List Stmt)
| handler (type : Option Expr) (asname : Option String) (body : List Stmt)

/-- A parsed module: the number of header lines libcst keeps in
`Module.header` (comments and blank lines before the first statement), and
the statement list `Module.body`. -/
structure PyModule where
  header : Nat
  body : List Stmt

/- Number of source lines a statement occupies, leading lines included.
A `def` line and a `class` line and a `try` line and an `except` line each
occupy one line; each decorator occupies one line. -/
mutual
def stmtH : Stmt → Nat
| .simple l h _ => l + h
| .funcdef l decs _ body => l + decs.length + 1 + stmtsH body
| .classdef l _ body => l + 1 + stmtsH body
| .tryStmt l body hs => l + 1 + stmtsH body + stmtsH hs
| .handler _ _ body => 1 + stmtsH body
def stmtsH : List Stmt → Nat
| [] => 0
| s :: rest => stmtH s + stmtsH rest
end

/-- Leading blank/comment lines attached to a statement. -/
def stmtLeading : Stmt → Nat
| .simple l _ _ => l
| .funcdef l _ _ _ => l
| .classdef l _ _ => l
| .tryStmt l _ _ => l
| .handler _ _ _ => 0

/-- Line on which the block slot of the `i`-th top-level statement begins
(1-indexed, after the module header and the previous statements). -/
def blockLine (m : PyModule) (i : Nat) : Nat :=
  m.header + 1 + stmtsH (m.body.take i)

/-- Syntactic start line of the `i`-th top-level statement (its leading
lines skipped), as libcst's `PositionProvider` reports it for a simple
statement line. -/
def stmtStartLine (m : PyModule) (i : Nat) : Nat :=
  blockLine m i + stmtLeading (m.body.getD i (.simple 0 1 []))

/-- Syntactic end line of the `i`-th top-level statement. -/
def stmtEndLine (m : PyModule) (i : Nat) : Nat :=
  blockLine m i + stmtH (m.body.getD i (.simple 0 1 [])) - 1

/-- Is a small statement an `Import` or `ImportFrom` node
(`m.Import | m.ImportFrom` in `transformers.matches_import`)? -/
def smallIsImport : SmallStmt → Bool
| .importNames _ => true
| .importFrom _ _ _ => true
| _ => false

/-- The predicate of `transformers.matches_import`: a simple statement line
all of whose members are import statements. -/
def matchesImport : Stmt → Bool
| .simple _ _ body => body.all smallIsImport
| _ => false

/-- Index of the last top-level statement matched by
`transformers.matches_import`, the insertion anchor both the import-adding
and the call-adding transformers track as `self.last_import`. -/
def lastImportIdx : List Stmt → Option Nat
| [] => none
| s :: rest =>
  match lastImportIdx rest with
  | some i => some (i + 1)
  | none => if matchesImport s then some 0 else none

/-- Insert a statement at position `n` of a statement list. -/
def insertAt (n : Nat) (s : Stmt) (l : List Stmt) : List Stmt :=
  l.take n ++ s :: l.drop n

/-- The statement `cst.parse_statement(f"from {path} import {obj}")` that
`ImportReporterTransformer` synthesizes: a one-line import with no leading
lines.  The import path is carried as its dotted components. -/
def reporterImportStmt (pathComponents : List String) (objectName : String) : Stmt :=
  .simple 0 1 [.importFrom 0 pathComponents [⟨objectName, none⟩]]

/-- Source text of the synthesized reporter import, exactly the f-string
`ImportReporterTransformer` parses it from. -/
def reporterImportCode (pathComponents : List String) (objectName : String) : String :=
  "from " ++ String.intercalate "." pathComponents ++ " import " ++ objectName

/-- The `ImportReporterTransformer`: insert the synthesized reporter import
immediately after the last top-level import statement, or at the front of the
module body when no top-level import exists. -/
def importReporterTransform (pathComponents : List String) (objectName : String)
    (m : PyModule) : PyModule :=
  match lastImportIdx m.body with
  | none => ⟨m.header, reporterImportStmt pathComponents objectName :: m.body⟩
  | some i => ⟨m.header, insertAt (i + 1) (reporterImportStmt pathComponents objectName) m.body⟩

/-- A Call Record as `visitors.PackageFileVisitor.visit_Call` constructs it.
The visitor passes `scope_str = ".".join(scope_stack)` — a single string —
although `models.ReporterCall` declares the field as `scope_stack: List[str]`;
that mismatch is the subject of claim C4, so the embedded record carries the
string value that the code actually computes. -/
structure ReporterCall where
  call_type : String
  lineno : Nat
  scope_str : String
deriving DecidableEq

/-- A Decorator Record as `visitors.PackageFileVisitor.visit_FunctionDef`
constructs it (same joined-string scope remark as for `ReporterCall`). -/
structure ReporterDecorator where
  decorator_type : String
  lineno : Nat
  scope_str : String
deriving DecidableEq

/-- A Decorator Candidate as `visitors.DecoratorCandidatesVisitor`
constructs it. -/
structure ReporterDecoratorCandidate where
  scope_str : String
  lineno : Nat
deriving DecidableEq

/-- State of `visitors.PackageFileVisitor`.  The code initializes
`ReporterImportedAt = -1`; we embed the sentinel as `none`. -/
structure VState where
  ReporterImportedAs : String
  ReporterImportedAt : Option Nat
  ReporterCorrectlyImported : Bool
  last_import_lineno : Nat
  calls : List ReporterCall
  decorators : List ReporterDecorator

/-- Initial visitor state. -/
def initVState : VState :=
  ⟨"", none, false, 0, [], []⟩

/-- The string `reporter_module_path.rsplit(".", 1)[0]` used by
`PackageFileVisitor.matches_with_package_import`, computed on the dotted
components of the path. -/
def rsplitHead (pathComponents : List String) : String :=
  if pathComponents.length ≤ 1 then String.intercalate "." pathComponents
  else String.intercalate "." pathComponents.dropLast

/-- The matcher of `PackageFileVisitor.matches_with_package_import`: the
module of the import-from must be the two-component attribute
`Name(rsplit_head).attr("report")`; deeper modules parse as nested
`Attribute` nodes and never match `m.Name`, and one-component modules parse
as `Name` and never match `m.Attribute`. -/
def matchesPackageImport (pathComponents : List String) (module : List String) : Bool :=
  match module with
  | [x, y] => x == rsplitHead pathComponents && y == "report"
  | _ => false

/-- The loop of `PackageFileVisitor.check_alias_for_reporter`: any alias
literally named `reporter` sets the imported-as name (the as-name when
present), the import line, and the correctly-imported flag. -/
def checkAliasForReporter (aliases : List ImportAlias) (line : Nat) (st : VState) : VState :=
  aliases.foldl
    (fun acc a =>
      if a.name == "reporter" then
        { acc with
          ReporterImportedAs := a.asname.getD a.name
          ReporterImportedAt := some line
          ReporterCorrectlyImported := line == acc.last_import_lineno + 1 }
      else acc)
    st

/- Call Records contributed by `visit_Call` while walking one expression:
every call whose function is an attribute access on the name currently bound
to the reporter is recorded under its attribute name. -/
mutual
def callsInExpr (impAs : String) (line : Nat) (scope : String) : Expr → List ReporterCall
| .call f args =>
  (match f with
   | .attr base a => if base == impAs then [⟨a, line, scope⟩] else []
   | _ => []) ++ callsInExpr impAs line scope f ++ callsInExprList impAs line scope args
| _ => []
def callsInExprList (impAs : String) (line : Nat) (scope : String) : List Expr → List ReporterCall
| [] => []
| e :: rest => callsInExpr impAs line scope e ++ callsInExprList impAs line scope rest
end

/-- Decorator Records contributed by `visit_FunctionDef`: each decorator of
shape `Attribute(Name(imported_as), Name(k))` yields a record for kind `k` at
the decorator's own line. -/
def decoratorRecs (impAs scopeStr : String) : Nat → List Expr → List ReporterDecorator
| _, [] => []
| line, d :: rest =>
  (match d with
   | .attr base a => if base == impAs then [⟨a, line, scopeStr⟩] else []
   | _ => []) ++ decoratorRecs impAs scopeStr (line + 1) rest

/-- Call Records contributed by calls nested inside decorator expressions
(libcst visits the decorator children of a `FunctionDef` after
`visit_FunctionDef` pushed the function's name). -/
def decoratorExprCalls (impAs scope : String) (impSome : Bool) : Nat → List Expr → List ReporterCall
| _, [] => []
| line, d :: rest =>
  (if impSome then callsInExpr impAs line scope d else []) ++
    decoratorExprCalls impAs scope impSome (line + 1) rest

/-- One small statement of a simple statement line, in visitor order: the
imports are processed only at scope-stack-empty positions
(`visit_Import` / `visit_ImportFrom` return early inside functions and
classes); the alias check runs before `last_import_lineno` is advanced to the
node's end line; calls are recorded only once the reporter import has been
seen (`visit_Call` returns when `ReporterImportedAt == -1`).  Only the
absolute-import branch of `visit_ImportFrom` is embedded; every claim is
settled in the configuration's default `relative_imports = False` mode. -/
def visitSmall (pathComponents : List String) (scope : List String)
    (line endLine : Nat) (st : VState) : SmallStmt → VState
| .importNames _ =>
  if scope.isEmpty then { st with last_import_lineno := endLine } else st
| .importFrom _ module aliases =>
  if scope.isEmpty then
    let st1 := if matchesPackageImport pathComponents module then
                 checkAliasForReporter aliases line st
               else st
    { st1 with last_import_lineno := endLine }
  else st
| .exprStmt e =>
  if st.ReporterImportedAt.isSome then
    { st with calls := st.calls ++ callsInExpr st.ReporterImportedAs line (String.intercalate "." scope) e }
  else st
| .passStmt => st
| .opaqueSmall _ => st

/-- Fold `visitSmall` over a simple statement line. -/
def visitSmalls (pathComponents : List String) (scope : List String)
    (line endLine : Nat) (st : VState) : List SmallStmt → VState
| [] => st
| s :: rest => visitSmalls pathComponents scope line endLine (visitSmall pathComponents scope line endLine st s) rest

/- Document-order traversal of `PackageFileVisitor` over statements,
threading the current source line, the lexical scope stack (function and
class names) and the visitor state. -/
mutual
def visitStmt (pathComponents : List String) (scope : List String)
    (line : Nat) (st : VState) : Stmt → VState
| .simple l h body =>
  visitSmalls pathComponents scope (line + l) (line + l + h - 1) st body
| .funcdef l decs name body =>
  let defLine := line + l + decs.length
  let scope' := scope ++ [name]
  let scopeStr := String.intercalate "." scope'
  let st1 := { st with decorators := st.decorators ++ decoratorRecs st.ReporterImportedAs scopeStr (line + l) decs }
  let st2 := { st1 with calls := st1.calls ++ decoratorExprCalls st1.ReporterImportedAs scopeStr st1.ReporterImportedAt.isSome (line + l) decs }
  visitStmts pathComponents scope' (defLine + 1) st2 body
| .classdef l name body =>
  visitStmts pathComponents (scope ++ [name]) (line + l + 1) st body
| .tryStmt l body hs =>
  let st1 := visitStmts pathComponents scope (line + l + 1) st body
  visitStmts pathComponents scope (line + l + 1 + stmtsH body) st1 hs
| .handler t _ body =>
  let st1 :=
    match t with
    | some e =>
      if st.ReporterImportedAt.isSome then
        { st with calls := st.calls ++ callsInExpr st.ReporterImportedAs line (String.intercalate "." scope) e }
      else st
    | none => st
  visitStmts pathComponents scope (line + 1) st1 body
def visitStmts (pathComponents : List String) (scope : List String)
    (line : Nat) (st : VState) : List Stmt → VState
| [] => st
| s :: rest => visitStmts pathComponents scope (line + stmtH s) (visitStmt pathComponents scope line st s) rest
end

/-- Run `PackageFileVisitor` over a module, as
`PackageFileManager._visit` does after every transformation. -/
def visitModule (pathComponents : List String) (m : PyModule) : VState :=
  visitStmts pathComponents [] (m.header + 1) initVState m.body

/-- The `PackageFileManager.is_reporter_imported` check. -/
def isReporterImported (st : VState) : Bool :=
  st.ReporterImportedAt.isSome && st.ReporterImportedAs != ""

/-- The `PackageFileManager.add_reporter_import` operation: a silent no-op
when the visitor already sees the reporter imported; otherwise run the
transformer, re-visit, and raise `GenerateReporterError` when the
fresh visitor still does not detect the reporter. -/
def addReporterImportM (pathComponents : List String) (objectName : String)
    (m : PyModule) : Except String PyModule :=
  if isReporterImported (visitModule pathComponents m) then .ok m
  else
    let m' := importReporterTransform pathComponents objectName m
    let st' := visitModule pathComponents m'
    if st'.ReporterImportedAs == "" || st'.ReporterImportedAt.isNone then
      .error "Failed to import reporter"
    else .ok m'

/-- The `PackageFileManager.get_calls` query: the visitor's Call Records of
one call type (`self.visitor.calls.get(call_type, [])`). -/
def getCalls (pathComponents : List String) (call_type : String) (m : PyModule) :
    List ReporterCall :=
  (visitModule pathComponents m).calls.filter (fun c => c.call_type == call_type)

/-- The statement `ReporterCallsAdderTransformer` builds:
`Expr(Call(func=Attribute(Name(imported_as), Name(call_type))))` on a fresh
one-line simple statement. -/
def reporterCallStmt (impAs call_type : String) : Stmt :=
  .simple 0 1 [.exprStmt (.call (.attr impAs call_type) [])]

/-- The `PackageFileManager.add_call` operation: no-op when a Call Record of
the kind exists; otherwise ensure the reporter import, then insert the call
statement immediately after the last top-level import (raising when no import
statement is found). -/
def addCallM (pathComponents : List String) (objectName call_type : String)
    (m : PyModule) : Except String PyModule :=
  if (getCalls pathComponents call_type m).isEmpty then
    match (if isReporterImported (visitModule pathComponents m) then Except.ok m
           else addReporterImportM pathComponents objectName m) with
    | .error e => .error e
    | .ok m1 =>
      let st1 := visitModule pathComponents m1
      match lastImportIdx m1.body with
      | none => .error "No import found when tried to add call"
      | some i =>
        .ok ⟨m1.header, insertAt (i + 1) (reporterCallStmt st1.ReporterImportedAs call_type) m1.body⟩
  else .ok m

/-- The matcher `transformers.matches_with_reporter_decorator`: a decorator
of shape `Attribute(Name(imported_as), Name(decorator_type))`. -/
def matchesWithReporterDecorator (impAs decType : String) : Expr → Bool
| .attr base a => base == impAs && a == decType
| _ => false

/- The `DecoratorsAdderTransformer`: on every function definition whose
syntactic start line is in `lines_to_add` and which does not already carry a
matching reporter decorator, prepend the decorator
`Attribute(Name(imported_as), Name(decorator_type))`. -/
mutual
def decAddStmt (impAs decType : String) (lines : List Nat) (line : Nat) : Stmt → Stmt
| .simple l h b => .simple l h b
| .funcdef l decs name body =>
  let defLine := line + l + decs.length
  let body' := decAddStmts impAs decType lines (defLine + 1) body
  if lines.contains defLine && !(decs.any (matchesWithReporterDecorator impAs decType)) then
    .funcdef l (.attr impAs decType :: decs) name body'
  else .funcdef l decs name body'
| .classdef l name body => .classdef l name (decAddStmts impAs decType lines (line + l + 1) body)
| .tryStmt l body hs =>
  .tryStmt l (decAddStmts impAs decType lines (line + l + 1) body)
    (decAddStmts impAs decType lines (line + l + 1 + stmtsH body) hs)
| .handler t a body => .handler t a (decAddStmts impAs decType lines (line + 1) body)
def decAddStmts (impAs decType : String) (lines : List Nat) (line : Nat) : List Stmt → List Stmt
| [] => []
| s :: rest => decAddStmt impAs decType lines line s :: decAddStmts impAs decType lines (line + stmtH s) rest
end

/- The `DecoratorsRemoverTransformer`: on every function definition whose
syntactic start line is in `lines_to_remove`, drop every decorator matching
the reporter decorator of the requested kind. -/
mutual
def decRemStmt (impAs decType : String) (lines : List Nat) (line : Nat) : Stmt → Stmt
| .simple l h b => .simple l h b
| .funcdef l decs name body =>
  let defLine := line + l + decs.length
  let body' := decRemStmts impAs decType lines (defLine + 1) body
  if lines.contains defLine then
    .funcdef l (decs.filter (fun d => !(matchesWithReporterDecorator impAs decType d))) name body'
  else .funcdef l decs name body'
| .classdef l name body => .classdef l name (decRemStmts impAs decType lines (line + l + 1) body)
| .tryStmt l body hs =>
  .tryStmt l (decRemStmts impAs decType lines (line + l + 1) body)
    (decRemStmts impAs decType lines (line + l + 1 + stmtsH body) hs)
| .handler t a body => .handler t a (decRemStmts impAs decType lines (line + 1) body)
def decRemStmts (impAs decType : String) (lines : List Nat) (line : Nat) : List Stmt → List Stmt
| [] => []
| s :: rest => decRemStmt impAs decType lines line s :: decRemStmts impAs decType lines (line + stmtH s) rest
end

/-- The guard shared by `TryExceptAdderTransformer.leave_ExceptHandler` and
`TryExceptRemoverTransformer.leave_ExceptHandler`: the handler is rewritten
only when the function-scope stack is nonempty and its top (the innermost
enclosing function's def line) is among the supplied line numbers. -/
def teGuard (linenos funcScope : List Nat) : Bool :=
  match funcScope.getLast? with
  | none => false
  | some s => linenos.contains s

/-- The matcher `matches_error_report_statement`: a simple statement line
whose single member is `Expr(Call(Attribute(Name(imported_as),
Name("error_report")), args=[Arg(Name(asname))]))`. -/
def isErrorReportStmt (impAs asname : String) : Stmt → Bool
| .simple _ _ [.exprStmt (.call (.attr base a) [.name arg])] =>
  base == impAs && a == "error_report" && arg == asname
| _ => false

/-- The statement
`cst.parse_statement(f"{imported_as}.error_report({asname})")` that
`TryExceptAdderTransformer` inserts at the front of a handler body. -/
def errorReportStmt (impAs asname : String) : Stmt :=
  .simple 0 1 [.exprStmt (.call (.attr impAs "error_report") [.name asname])]

/- The `TryExceptAdderTransformer`: function definitions push their def line
onto the function-scope stack; on leaving a guarded except handler, bind an
exception name (`e` synthesized when absent), replace a missing handler type
with `BaseException`, and insert one `error_report` statement at the front of
the handler body unless one is already present. -/
mutual
def teAddStmt (impAs : String) (linenos funcScope : List Nat) (line : Nat) : Stmt → Stmt
| .simple l h b => .simple l h b
| .funcdef l decs name body =>
  let defLine := line + l + decs.length
  .funcdef l decs name (teAddStmts impAs linenos (funcScope ++ [defLine]) (defLine + 1) body)
| .classdef l name body => .classdef l name (teAddStmts impAs linenos funcScope (line + l + 1) body)
| .tryStmt l body hs =>
  .tryStmt l (teAddStmts impAs linenos funcScope (line + l + 1) body)
    (teAddStmts impAs linenos funcScope (line + l + 1 + stmtsH body) hs)
| .handler t a body =>
  let body' := teAddStmts impAs linenos funcScope (line + 1) body
  if teGuard linenos funcScope then
    let asname := a.getD "e"
    let body'' := if body'.any (isErrorReportStmt impAs asname) then body'
                  else errorReportStmt impAs asname :: body'
    .handler (some (t.getD (.name "BaseException"))) (some asname) body''
  else .handler t a body'
def teAddStmts (impAs : String) (linenos funcScope : List Nat) (line : Nat) : List Stmt → List Stmt
| [] => []
| s :: rest => teAddStmt impAs linenos funcScope line s :: teAddStmts impAs linenos funcScope (line + stmtH s) rest
end

/- The `TryExceptRemoverTransformer`: on leaving a guarded except handler
that has an exception type and a bound name, drop every `error_report`
statement for that name from the handler body; handlers without a type or
without a bound name are returned unchanged. -/
mutual
def teRemStmt (impAs : String) (linenos funcScope : List Nat) (line : Nat) : Stmt → Stmt
| .simple l h b => .simple l h b
| .funcdef l decs name body =>
  let defLine := line + l + decs.length
  .funcdef l decs name (teRemStmts impAs linenos (funcScope ++ [defLine]) (defLine + 1) body)
| .classdef l name body => .classdef l name (teRemStmts impAs linenos funcScope (line + l + 1) body)
| .tryStmt l body hs =>
  .tryStmt l (teRemStmts impAs linenos funcScope (line + l + 1) body)
    (teRemStmts impAs linenos funcScope (line + l + 1 + stmtsH body) hs)
| .handler t a body =>
  let body' := teRemStmts impAs linenos funcScope (line + 1) body
  if teGuard linenos funcScope then
    match t with
    | none => .handler t a body'
    | some _ =>
      match a with
      | none => .handler t a body'
      | some asname => .handler t a (body'.filter (fun s => !(isErrorReportStmt impAs asname s)))
  else .handler t a body'
def teRemStmts (impAs : String) (linenos funcScope : List Nat) (line : Nat) : List Stmt → List Stmt
| [] => []
| s :: rest => teRemStmt impAs linenos funcScope line s :: teRemStmts impAs linenos funcScope (line + stmtH s) rest
end

/-- Run the decorator-adding transformer over a module. -/
def decAddModule (impAs decType : String) (lines : List Nat) (m : PyModule) : PyModule :=
  ⟨m.header, decAddStmts impAs decType lines (m.header + 1) m.body⟩

/-- Run the decorator-removing transformer over a module. -/
def decRemModule (impAs decType : String) (lines : List Nat) (m : PyModule) : PyModule :=
  ⟨m.header, decRemStmts impAs decType lines (m.header + 1) m.body⟩

/-- Run the try-except-adding transformer over a module (empty function
scope at module level). -/
def teAddModule (impAs : String) (linenos : List Nat) (m : PyModule) : PyModule :=
  ⟨m.header, teAddStmts impAs linenos [] (m.header + 1) m.body⟩

/-- Run the try-except-removing transformer over a module. -/
def teRemModule (impAs : String) (linenos : List Nat) (m : PyModule) : PyModule :=
  ⟨m.header, teRemStmts impAs linenos [] (m.header + 1) m.body⟩

/-- The `PackageFileManager.add_decorators` operation: when the reporter is
not yet imported, add the import first and shift every caller line number by
one; run the decorator adder; for `record_errors`, additionally run the
try-except adder with the line numbers shifted by one more (the prepended
decorator line moved every `def` line down by one). -/
def mgrAddDecorators (pathComponents : List String) (objectName decType : String)
    (linenos : List Nat) (m : PyModule) : Except String PyModule :=
  match (if isReporterImported (visitModule pathComponents m) then Except.ok (m, linenos)
         else match addReporterImportM pathComponents objectName m with
              | .error e => .error e
              | .ok m1 => .ok (m1, linenos.map (· + 1))) with
  | .error e => .error e
  | .ok (m1, funcLinenos) =>
    let st1 := visitModule pathComponents m1
    let m2 := decAddModule st1.ReporterImportedAs decType funcLinenos m1
    if decType == "record_errors" then
      let st2 := visitModule pathComponents m2
      .ok (teAddModule st2.ReporterImportedAs (funcLinenos.map (· + 1)) m2)
    else .ok m2

/-- The `PackageFileManager.remove_decorators` operation: run the decorator
remover with the caller's line numbers; for `record_errors`, additionally
run the try-except remover with the line numbers shifted down by one
(`[x - 1 for x in linenos]`; the embedding uses truncated `Nat` subtraction,
which agrees with the code on the line numbers ≥ 1 that callers supply). -/
def mgrRemoveDecorators (pathComponents : List String) (decType : String)
    (linenos : List Nat) (m : PyModule) : PyModule :=
  let st := visitModule pathComponents m
  let m1 := decRemModule st.ReporterImportedAs decType linenos m
  if decType == "record_errors" then
    let st1 := visitModule pathComponents m1
    teRemModule st1.ReporterImportedAs (linenos.map (· - 1)) m1
  else m1

/- The `DecoratorCandidatesVisitor`: every function definition (at any
nesting depth) lacking a reporter decorator of the requested kind yields a
candidate carrying the joined scope string (function's own name included)
and the function's syntactic start line. -/
mutual
def candStmt (impAs decType : String) (scope : List String) (line : Nat) :
    Stmt → List ReporterDecoratorCandidate
| .simple _ _ _ => []
| .funcdef l decs name body =>
  let defLine := line + l + decs.length
  let scope' := scope ++ [name]
  (if decs.any (matchesWithReporterDecorator impAs decType) then []
   else [⟨String.intercalate "." scope', defLine⟩]) ++
    candStmts impAs decType scope' (defLine + 1) body
| .classdef l name body => candStmts impAs decType (scope ++ [name]) (line + l + 1) body
| .tryStmt l body hs =>
  candStmts impAs decType scope (line + l + 1) body ++
    candStmts impAs decType scope (line + l + 1 + stmtsH body) hs
| .handler _ _ body => candStmts impAs decType scope (line + 1) body
def candStmts (impAs decType : String) (scope : List String) (line : Nat) :
    List Stmt → List ReporterDecoratorCandidate
| [] => []
| s :: rest =>
  candStmt impAs decType scope line s ++ candStmts impAs decType scope (line + stmtH s) rest
end

/-- The `PackageFileManager.decorator_candidates` query, run with the
current visitor's imported-as name. -/
def decoratorCandidates (pathComponents : List String) (decType : String) (m : PyModule) :
    List ReporterDecoratorCandidate :=
  candStmts (visitModule pathComponents m).ReporterImportedAs decType [] (m.header + 1) m.body

/-- The line numbers of the visitor's Decorator Records of one kind, the
validation set of `operations.remove_decorators`
(`list_decorators(...)[submodule_path]`). -/
def listDecoratorLinenos (pathComponents : List String) (decType : String) (m : PyModule) :
    List Nat :=
  ((visitModule pathComponents m).decorators.filter (fun d => d.decorator_type == decType)).map
    (fun d => d.lineno)

/-- The `operations.add_decorators` entry point: validate every supplied
line number against the current decorator-candidate lines, raising
`GenerateDecoratorError` (embedded as the error message it is built with)
on the first invalid one, before any transformation; otherwise run the
manager operation (whose result `operations.add_decorators` then writes to
disk — an `.error` result therefore means nothing was written). -/
def addDecoratorsOp (pathComponents : List String) (objectName decType submodulePath : String)
    (linenos : List Nat) (m : PyModule) : Except String PyModule :=
  let candidateLinenos := (decoratorCandidates pathComponents decType m).map (fun c => c.lineno)
  match linenos.find? (fun l => !(candidateLinenos.contains l)) with
  | some l =>
    .error ("Non-candidate source code: submodule_path=" ++ submodulePath ++ ", lineno=" ++ toString l)
  | none => mgrAddDecorators pathComponents objectName decType linenos m

/-- The `operations.remove_decorators` entry point: validate every supplied
line number against the currently listed decorator lines, raising
`GenerateDecoratorError` on the first invalid one before any
transformation. -/
def removeDecoratorsOp (pathComponents : List String) (decType submodulePath : String)
    (linenos : List Nat) (m : PyModule) : Except String PyModule :=
  let candidateLinenos := listDecoratorLinenos pathComponents decType m
  match linenos.find? (fun l => !(candidateLinenos.contains l)) with
  | some l =>
    .error ("Could not undecorate invalid code at: submodule_path=" ++ submodulePath ++ ", lineno=" ++ toString l)
  | none => .ok (mgrRemoveDecorators pathComponents decType linenos m)

/-- Longest shared leading run of path components, the component-level model
of `os.path.commonpath` (and of the common-prefix step inside
`os.path.relpath`) for normalized relative paths without `.` or `..`
segments. -/
def commonLead : List String → List String → List String
| a :: xs, b :: ys => if a = b then a :: commonLead xs ys else []
| _, _ => []

/-- Component-level model of `os.path.relpath(path, start)` for normalized
paths: climb with `..` for every `start` component beyond the shared lead,
then descend with the remaining `path` components; equal paths give the
current-directory path `["."]`, as `os.path.relpath` returns `"."`. -/
def relpathParts (path start : List String) : List String :=
  let c := commonLead path start
  let r := List.replicate (start.length - c.length) ".." ++ path.drop c.length
  if r.isEmpty then ["."] else r

/-- Model of `pathlib.Path(p).parts` applied to a relative-path string:
identical to the component list except that the current-directory path `"."`
has no parts. -/
def pathParts (r : List String) : List String :=
  if r = ["."] then [] else r

/-- Index of the last `'.'` in a character list. -/
def lastDotIdx : List Char → Option Nat
| [] => none
| c :: cs =>
  match lastDotIdx cs with
  | some i => some (i + 1)
  | none => if c == '.' then some 0 else none

/-- Model of `os.path.splitext(s)[0]` for a bare file name (no directory
separators): split at the last dot, unless every character before that dot
is itself a dot (so `".hidden"` keeps its name, as in `posixpath.splitext`). -/
def splitextBase (s : String) : String :=
  match lastDotIdx s.toList with
  | none => s
  | some i => if (s.toList.take i).all (fun c => c == '.') then s else ⟨s.toList.take i⟩

/-- A run of `n` dots, the `"." * num_dots` of
`manager.get_reporter_import_information`. -/
def dotsString (n : Nat) : String :=
  ⟨List.replicate n '.'⟩

/-- The `relative_imports` branch of
`manager.get_reporter_import_information`: common ancestor of target file
and reporter file, one leading dot per component of the ancestor-to-target
relative path beyond the first, then (after the literal dot of the f-string
`f"{import_dots}.{...}"`) the dotted ancestor-to-reporter path with the
reporter file's extension stripped.  Paths are carried as component lists of
normalized relative paths. -/
def relativeImportPath (submodulePath reporterFilepath : List String) : String :=
  let commonAncestor := commonLead submodulePath reporterFilepath
  let caToSubmodule := pathParts (relpathParts submodulePath commonAncestor)
  let caToReporter := pathParts (relpathParts reporterFilepath commonAncestor)
  let numDots := caToSubmodule.length - 1
  let comps := caToReporter.dropLast ++ [splitextBase (caToReporter.getLast?.getD "")]
  dotsString numDots ++ "." ++ String.intercalate "." comps

/-- The absolute branch of `manager.get_reporter_import_information`:
`os.path.basename(repository)` (the last component of the normalized
repository path), then the dotted repository-to-reporter relative path with
the reporter file's extension stripped. -/
def absoluteImportPath (repository reporterFilepath : List String) : String :=
  let repoToReporter := pathParts (relpathParts reporterFilepath repository)
  let comps := repoToReporter.dropLast ++ [splitextBase (repoToReporter.getLast?.getD "")]
  repository.getLast?.getD "" ++ "." ++ String.intercalate "." comps

/-- Well-formedness of an import alias as any parsed Python import alias
satisfies it: identifiers are nonempty. -/
def wfAlias (a : ImportAlias) : Bool :=
  a.name != "" &&
    (match a.asname with
     | some x => x != ""
     | none => true)

/-- Well-formedness of a small statement: import aliases carry nonempty
identifiers. -/
def wfSmall : SmallStmt → Bool
| .importFrom _ _ aliases => aliases.all wfAlias
| _ => true

/- Well-formedness of statements: simple statement lines are nonempty, span
at least one source line, and carry well-formed small statements — facts
every libcst-parsed module satisfies. -/
mutual
def wfStmt : Stmt → Bool
| .simple _ h b => decide (1 ≤ h) && !b.isEmpty && b.all wfSmall
| .funcdef _ _ _ body => wfStmts body
| .classdef _ _ body => wfStmts body
| .tryStmt _ body hs => wfStmts body && wfStmts hs
| .handler _ _ body => wfStmts body
def wfStmts : List Stmt → Bool
| [] => true
| s :: rest => wfStmt s && wfStmts rest
end

/-- Well-formedness of a module. -/
def wfModule (m : PyModule) : Bool :=
  wfStmts m.body

/-- Is a small statement an import-from on which the visitor's
absolute-mode detection can fire: its module matches the package-import
matcher and some alias is literally named `reporter`?  Only such statements
can ever change the visitor's detected-import fields (`check_alias_for_reporter`
leaves the state untouched for every other alias). -/
def isReporterImportFrom (pathComponents : List String) : SmallStmt → Bool
| .importFrom _ module aliases =>
  matchesPackageImport pathComponents module && aliases.any (fun a => a.name == "reporter")
| _ => false

/- No detecting reporter import-from occurs at a position the visitor
reaches with an empty scope stack inside this statement's subtree (function
and class bodies are exempt: the visitor skips imports there). -/
mutual
def noDetectStmt (pathComponents : List String) : Stmt → Bool
| .simple _ _ b => b.all (fun s => !isReporterImportFrom pathComponents s)
| .funcdef _ _ _ _ => true
| .classdef _ _ _ => true
| .tryStmt _ body hs =>
  noDetectStmts pathComponents body && noDetectStmts pathComponents hs
| .handler _ _ body => noDetectStmts pathComponents body
def noDetectStmts (pathComponents : List String) : List Stmt → Bool
| [] => true
| s :: rest => noDetectStmt pathComponents s && noDetectStmts pathComponents rest
end

/-- Every reporter import the visitor can detect at module scope sits in a
direct, imports-only statement line of the module body: no detecting
reporter import-from hidden inside a top-level compound statement (for
example a `try` block) and none sharing a simple statement line with
non-import code.  Import-from statements the detection cannot fire on — a
different module, or no alias named `reporter` — are unconstrained. -/
def nakedReporterImportsOnly (pathComponents : List String) (m : PyModule) : Bool :=
  m.body.all fun s =>
    match s with
    | .simple _ _ b =>
      b.all smallIsImport || b.all (fun x => !isReporterImportFrom pathComponents x)
    | _ => noDetectStmt pathComponents s

/- Syntactic start lines of every function definition in a subtree, threaded
with the same position bookkeeping as the transformers. -/
mutual
def defLinesStmt (line : Nat) : Stmt → List Nat
| .simple _ _ _ => []
| .funcdef l decs _ body =>
  let defLine := line + l + decs.length
  defLine :: defLinesStmts (defLine + 1) body
| .classdef l _ body => defLinesStmts (line + l + 1) body
| .tryStmt l body hs =>
  defLinesStmts (line + l + 1) body ++ defLinesStmts (line + l + 1 + stmtsH body) hs
| .handler _ _ body => defLinesStmts (line + 1) body
def defLinesStmts (line : Nat) : List Stmt → List Nat
| [] => []
| s :: rest => defLinesStmt line s ++ defLinesStmts (line + stmtH s) rest
end

/- Function names paired with their decorator lists, in document order. -/
mutual
def funcDecosStmt : Stmt → List (String × List Expr)
| .simple _ _ _ => []
| .funcdef _ decs name body => (name, decs) :: funcDecosStmts body
| .classdef _ _ body => funcDecosStmts body
| .tryStmt _ body hs => funcDecosStmts body ++ funcDecosStmts hs
| .handler _ _ body => funcDecosStmts body
def funcDecosStmts : List Stmt → List (String × List Expr)
| [] => []
| s :: rest => funcDecosStmt s ++ funcDecosStmts rest
end

/-- Decorator-list length of every function definition of a module, in
document order. -/
def funcDecoratorCounts (m : PyModule) : List Nat :=
  (funcDecosStmts m.body).map (fun p => p.2.length)

/- As-name binding of every except handler in a subtree, in document order. -/
mutual
def handlerAsnamesStmt : Stmt → List (Option String)
| .simple _ _ _ => []
| .funcdef _ _ _ body => handlerAsnamesStmts body
| .classdef _ _ body => handlerAsnamesStmts body
| .tryStmt _ body hs => handlerAsnamesStmts body ++ handlerAsnamesStmts hs
| .handler _ a body => a :: handlerAsnamesStmts body
def handlerAsnamesStmts : List Stmt → List (Option String)
| [] => []
| s :: rest => handlerAsnamesStmt s ++ handlerAsnamesStmts rest
end

/-- As-name bindings of every except handler of a module. -/
def handlerAsnames (m : PyModule) : List (Option String) :=
  handlerAsnamesStmts m.body

/-- The exception type of a handler statement. -/
def handlerTypeOf : Stmt → Option Expr
| .handler t _ _ => t
| _ => none

/-- The as-name binding of a handler statement. -/
def handlerAsnameOf : Stmt → Option String
| .handler _ a _ => a
| _ => none

/-- Count of `error_report` statements for one binding and as-name among the
direct statements of a handler body. -/
def countErr (impAs asname : String) (body : List Stmt) : Nat :=
  body.countP (fun s => isErrorReportStmt impAs asname s)

/-- Count of `error_report` statements among the direct statements of a
handler statement's body. -/
def handlerErrCount (impAs asname : String) : Stmt → Nat
| .handler _ _ body => countErr impAs asname body
| _ => 0

/-- The reporter import path `pkg.report` of the spec's scenarios, as dotted
components. -/
def pcPkgReport : List String := ["pkg", "report"]

/-- The naked reporter import statement for that path. -/
def exImport : Stmt := reporterImportStmt pcPkgReport "reporter"

/-- Example file for the decoration round trip: the reporter import on line
1 and an undecorated `def f` on line 2 (its decorator-candidate line). -/
def exRound : PyModule :=
  ⟨0, [exImport, .funcdef 0 [] "f" [.simple 0 1 [.passStmt]]]⟩

/-- The same file after `add_decorators("record_call", [2])`: the reporter
decorator occupies line 2 and the `def` line moved to line 3. -/
def exRoundDecorated : PyModule :=
  ⟨0, [exImport, .funcdef 0 [.attr "reporter" "record_call"] "f" [.simple 0 1 [.passStmt]]]⟩

/-- Example file whose one header line is a comment: `# note` then
`pass`. -/
def exHeaderComment : PyModule :=
  ⟨1, [.simple 0 1 [.passStmt]]⟩

/-- Example file for add-call idempotence failure: `import os` on line 1 and
a `try` block on lines 2-5 whose body holds the reporter import — a
top-level import the visitor detects (its scope stack tracks only functions
and classes) but that is not a direct statement of the module body. -/
def exTryImport : PyModule :=
  ⟨0, [.simple 0 1 [.importNames ["os"]],
       .tryStmt 0 [.simple 0 1 [.importFrom 0 pcPkgReport [⟨"reporter", none⟩]]]
         [.handler none none [.simple 0 1 [.passStmt]]]]⟩

/-- `exTryImport` after one `add_call("system_report")`: the call was
inserted after the last naked import (`import os`), hence before the line on
which the visitor detects the reporter import. -/
def exTryImportOnce : PyModule :=
  ⟨0, [.simple 0 1 [.importNames ["os"]],
       reporterCallStmt "reporter" "system_report",
       .tryStmt 0 [.simple 0 1 [.importFrom 0 pcPkgReport [⟨"reporter", none⟩]]]
         [.handler none none [.simple 0 1 [.passStmt]]]]⟩

/-- `exTryImportOnce` after a second `add_call("system_report")`: the call
statement was inserted again. -/
def exTryImportTwice : PyModule :=
  ⟨0, [.simple 0 1 [.importNames ["os"]],
       reporterCallStmt "reporter" "system_report",
       reporterCallStmt "reporter" "system_report",
       .tryStmt 0 [.simple 0 1 [.importFrom 0 pcPkgReport [⟨"reporter", none⟩]]]
         [.handler none none [.simple 0 1 [.passStmt]]]]⟩

/-- Module with the naked, direct reporter import on line 1 and a
non-reporter import-from (`from x import y`) inside a top-level try: the
detection-precise proviso covers it (the hidden import-from can never fire
the reporter detection), and add-call is idempotent on it. -/
def exMixedTry : PyModule :=
  ⟨0, [exImport,
       .tryStmt 0 [.simple 0 1 [.importFrom 0 ["x"] [⟨"y", none⟩]]]
         [.handler none none [.simple 0 1 [.passStmt]]]]⟩

/-- `exMixedTry` after one `add_call("system_report")`: the call sits right
after the naked reporter import, where re-analysis sees it. -/
def exMixedTryOnce : PyModule :=
  ⟨0, [exImport,
       reporterCallStmt "reporter" "system_report",
       .tryStmt 0 [.simple 0 1 [.importFrom 0 ["x"] [⟨"y", none⟩]]]
         [.handler none none [.simple 0 1 [.passStmt]]]]⟩

/-- Example file for the Call Record scope paths: the reporter import on
line 1, `def f` on line 2, `def g` on line 3, and
`reporter.system_report()` on line 4. -/
def exScopeNested : PyModule :=
  ⟨0, [exImport,
       .funcdef 0 [] "f"
         [.funcdef 0 [] "g"
           [.simple 0 1 [.exprStmt (.call (.attr "reporter" "system_report") [])]]]]⟩

/-- Example file with a module-top-level reporter call on line 2. -/
def exScopeTop : PyModule :=
  ⟨0, [exImport, .simple 0 1 [.exprStmt (.call (.attr "reporter" "system_report") [])]]⟩

/-- Example file for wrap-except: `def f` on line 1 (the targeted line),
`def g` on line 2 nested inside it, and a try/except with a bare handler on
lines 3-6 inside `g`. -/
def exNestedHandler : PyModule :=
  ⟨0, [.funcdef 0 [] "f"
        [.funcdef 0 [] "g"
          [.tryStmt 0 [.simple 0 1 [.passStmt]]
            [.handler none none [.simple 0 1 [.passStmt]]]]]]⟩

/-- Example file for the frame property: a module-top-level try/except
(lines 1-3) whose handler body defines `def f` on line 4, itself containing
a try with a bare handler on lines 5-8. -/
def exTopHandler : PyModule :=
  ⟨0, [.tryStmt 0 [.simple 0 1 [.passStmt]]
        [.handler none none
          [.funcdef 0 [] "f"
            [.tryStmt 0 [.simple 0 1 [.passStmt]]
              [.handler none none [.simple 0 1 [.passStmt]]]]]]]⟩

/-- `exTopHandler` after the try-except adder targeted `def f` (line 4): the
inner handler was wrapped, so the module-top-level handler's subtree — the
handler node itself — changed. -/
def exTopHandlerWrapped : PyModule :=
  ⟨0, [.tryStmt 0 [.simple 0 1 [.passStmt]]
        [.handler none none
          [.funcdef 0 [] "f"
            [.tryStmt 0 [.simple 0 1 [.passStmt]]
              [.handler (some (.name "BaseException")) (some "e")
                [errorReportStmt "reporter" "e", .simple 0 1 [.passStmt]]]]]]]⟩

/-- The except-handler list of the first statement of a module when that
statement is a try statement. -/
def firstTryHandlers (m : PyModule) : List Stmt :=
  match m.body with
  | .tryStmt _ _ hs :: _ => hs
  | _ => []

/-- Statement heights add over list append. -/
theorem stmtsH_append (xs ys : List Stmt) : stmtsH (xs ++ ys) = stmtsH xs + stmtsH ys := by
  induction xs with
  | nil => simp [stmtsH]
  | cons x xs ih => simp [stmtsH, ih]; omega

/-- Height of a one-longer take. -/
theorem stmtsH_take_succ (l : List Stmt) (i : Nat) (h : i < l.length) :
    stmtsH (l.take (i + 1)) = stmtsH (l.take i) + stmtH (l.getD i (.simple 0 1 [])) := by
  induction l generalizing i with
  | nil => simp at h
  | cons x xs ih =>
    cases i with
    | zero => simp [stmtsH, List.getD]
    | succ j =>
      have hj : j < xs.length := by simpa using h
      simp only [List.take_succ_cons, stmtsH, List.getD_cons_succ]
      have := ih j hj
      omega

/-- Element right after an appended run, by index. -/
theorem getD_append_len (xs ys : List Stmt) (y d : Stmt) :
    (xs ++ y :: ys).getD xs.length d = y := by
  induction xs with
  | nil => rfl
  | cons x xs ih => simpa [List.getD] using ih

/-- A last-import index is in range. -/
theorem lastImportIdx_lt (l : List Stmt) (i : Nat) (h : lastImportIdx l = some i) :
    i < l.length := by
  induction l generalizing i with
  | nil => simp [lastImportIdx] at h
  | cons s rest ih =>
    simp only [lastImportIdx] at h
    cases hr : lastImportIdx rest with
    | some j =>
      rw [hr] at h
      cases h
      have := ih j hr
      simp; omega
    | none =>
      rw [hr] at h
      by_cases hm : matchesImport s = true
      · simp [hm] at h; cases h; simp
      · simp [hm] at h

/-- The statement at a last-import index matches `matches_import`. -/
theorem lastImportIdx_matches (l : List Stmt) (i : Nat) (h : lastImportIdx l = some i) :
    matchesImport (l.getD i (.simple 0 1 [])) = true := by
  induction l generalizing i with
  | nil => simp [lastImportIdx] at h
  | cons s rest ih =>
    simp only [lastImportIdx] at h
    cases hr : lastImportIdx rest with
    | some j =>
      rw [hr] at h
      cases h
      simpa [List.getD] using ih j hr
    | none =>
      rw [hr] at h
      by_cases hm : matchesImport s = true
      · simp [hm] at h; cases h; simpa [List.getD] using hm
      · simp [hm] at h

/-- When no statement matches `matches_import`, the last-import index is
`none` — and conversely. -/
theorem lastImportIdx_none (l : List Stmt) (h : lastImportIdx l = none) :
    ∀ s ∈ l, matchesImport s = false := by
  induction l with
  | nil => simp
  | cons x rest ih =>
    simp only [lastImportIdx] at h
    cases hr : lastImportIdx rest with
    | some j => rw [hr] at h; cases h
    | none =>
      rw [hr] at h
      by_cases hm : matchesImport x = true
      · simp [hm] at h
      · intro s hs
        cases hs with
        | head => simpa using hm
        | tail _ hs => exact ih hr s hs

/-- Statements after the last import statement do not match
`matches_import`. -/
theorem lastImportIdx_drop (l : List Stmt) (i : Nat) (h : lastImportIdx l = some i) :
    ∀ s ∈ l.drop (i + 1), matchesImport s = false := by
  induction l generalizing i with
  | nil => simp [lastImportIdx] at h
  | cons x rest ih =>
    simp only [lastImportIdx] at h
    cases hr : lastImportIdx rest with
    | some j =>
      rw [hr] at h
      cases h
      intro s hs
      exact ih j hr s (by simpa using hs)
    | none =>
      rw [hr] at h
      by_cases hm : matchesImport x = true
      · simp [hm] at h
        cases h
        intro s hs
        exact lastImportIdx_none rest hr s (by simpa using hs)
      · simp [hm] at h

/-- Members of a well-formed statement list are well-formed. -/
theorem wfStmts_mem (l : List Stmt) (h : wfStmts l = true) : ∀ s ∈ l, wfStmt s = true := by
  induction l with
  | nil => simp
  | cons x rest ih =>
    simp only [wfStmts, Bool.and_eq_true] at h
    intro s hs
    cases hs with
    | head => exact h.1
    | tail _ hs => exact ih h.2 s hs

/-- A well-formed statement occupies at least one source line. -/
theorem wfStmt_stmtH_pos (s : Stmt) (h : wfStmt s = true) : 1 ≤ stmtH s := by
  cases s with
  | simple l hh b =>
    simp only [wfStmt, Bool.and_eq_true, decide_eq_true_eq] at h
    have := h.1.1
    simp [stmtH]; omega
  | funcdef l decs n body => simp only [stmtH]; omega
  | classdef l n body => simp only [stmtH]; omega
  | tryStmt l body hs => simp only [stmtH]; omega
  | handler t a body => simp only [stmtH]; omega

/-- Pointwise characterization of `noDetectStmts`. -/
theorem noDetectStmts_of_mem (pc : List String) (l : List Stmt)
    (h : ∀ s ∈ l, noDetectStmt pc s = true) : noDetectStmts pc l = true := by
  induction l with
  | nil => rfl
  | cons x rest ih =>
    simp only [noDetectStmts, Bool.and_eq_true]
    exact ⟨h x (.head _), ih (fun s hs => h s (.tail _ hs))⟩

/-- The visitor fold splits over list append. -/
theorem visitStmts_append (pc : List String) (scope : List String) (xs ys : List Stmt)
    (line : Nat) (st : VState) :
    visitStmts pc scope line st (xs ++ ys) =
      visitStmts pc scope (line + stmtsH xs) (visitStmts pc scope line st xs) ys := by
  induction xs generalizing line st with
  | nil => simp [visitStmts, stmtsH]
  | cons x xs ih =>
    have hc : (x :: xs) ++ ys = x :: (xs ++ ys) := rfl
    rw [hc]
    simp only [visitStmts, stmtsH]
    rw [ih, Nat.add_assoc]

/-- The reporter-alias check never touches the recorded calls. -/
theorem checkAlias_calls (aliases : List ImportAlias) (line : Nat) (st : VState) :
    (checkAliasForReporter aliases line st).calls = st.calls := by
  induction aliases generalizing st with
  | nil => rfl
  | cons a rest ih =>
    simp only [checkAliasForReporter, List.foldl_cons]
    by_cases h : a.name == "reporter" <;> simp [checkAliasForReporter, h] at ih ⊢ <;> exact ih _

/-- The reporter-alias check is the identity when no alias is literally
named `reporter`. -/
theorem checkAlias_no_reporter (aliases : List ImportAlias) (line : Nat) (st : VState)
    (h : aliases.any (fun a => a.name == "reporter") = false) :
    checkAliasForReporter aliases line st = st := by
  induction aliases generalizing st with
  | nil => rfl
  | cons a rest ih =>
    simp only [List.any_cons, Bool.or_eq_false_iff] at h
    simp only [checkAliasForReporter, List.foldl_cons, h.1, Bool.false_eq_true, if_false]
    exact ih st h.2

/-- One small statement preserves the detected-import fields when the
absolute-mode detection cannot fire on it or the scope stack is
nonempty. -/
theorem visitSmall_imports_eq (pc : List String) (scope : List String)
    (line endLine : Nat) (st : VState) (s : SmallStmt)
    (h : isReporterImportFrom pc s = false ∨ scope ≠ []) :
    (visitSmall pc scope line endLine st s).ReporterImportedAs = st.ReporterImportedAs ∧
    (visitSmall pc scope line endLine st s).ReporterImportedAt = st.ReporterImportedAt := by
  cases s with
  | importNames ns =>
    by_cases he : scope.isEmpty <;> simp [visitSmall, he]
  | importFrom dots module aliases =>
    by_cases he : scope.isEmpty
    · have hif : isReporterImportFrom pc (.importFrom dots module aliases) = false := by
        cases h with
        | inl h => exact h
        | inr h => exact absurd (List.isEmpty_iff.mp he) h
      by_cases hm : matchesPackageImport pc module = true
      · have hany : aliases.any (fun a => a.name == "reporter") = false := by
          simp only [isReporterImportFrom, hm, Bool.true_and] at hif
          exact hif
        simp [visitSmall, he, hm, checkAlias_no_reporter aliases line st hany]
      · simp [visitSmall, he, hm]
    · simp [visitSmall, he]
  | exprStmt e =>
    by_cases hi : st.ReporterImportedAt.isSome <;> simp [visitSmall, hi]
  | passStmt => simp [visitSmall]
  | opaqueSmall t => simp [visitSmall]

/-- A simple statement line preserves the detected-import fields when none
of its members is an import-from node or the scope stack is nonempty. -/
theorem visitSmalls_imports_eq (pc : List String) (scope : List String)
    (line endLine : Nat) (st : VState) (b : List SmallStmt)
    (h : b.all (fun s => !isReporterImportFrom pc s) = true ∨ scope ≠ []) :
    (visitSmalls pc scope line endLine st b).ReporterImportedAs = st.ReporterImportedAs ∧
    (visitSmalls pc scope line endLine st b).ReporterImportedAt = st.ReporterImportedAt := by
  induction b generalizing st with
  | nil => simp [visitSmalls]
  | cons s rest ih =>
    have hh : isReporterImportFrom pc s = false ∨ scope ≠ [] := by
      cases h with
      | inl h => simp [List.all_cons] at h; exact Or.inl (by simpa using h.1)
      | inr h => exact Or.inr h
    have ht : rest.all (fun s => !isReporterImportFrom pc s) = true ∨ scope ≠ [] := by
      cases h with
      | inl h => simp [List.all_cons] at h; exact Or.inl (by simpa using h.2)
      | inr h => exact Or.inr h
    have h1 := visitSmall_imports_eq pc scope line endLine st s hh
    have h2 := ih (visitSmall pc scope line endLine st s) ht
    simp only [visitSmalls]
    exact ⟨h2.1.trans h1.1, h2.2.trans h1.2⟩

/- Statements preserve the detected-import fields when no detecting
reporter import-from is reachable at an empty scope stack within them, or
the scope stack is already nonempty (the visitor skips imports inside
functions and classes). -/
mutual
theorem visitStmt_imports_eq (pc : List String) (scope : List String)
    (line : Nat) (st : VState) (s : Stmt)
    (h : noDetectStmt pc s = true ∨ scope ≠ []) :
    (visitStmt pc scope line st s).ReporterImportedAs = st.ReporterImportedAs ∧
    (visitStmt pc scope line st s).ReporterImportedAt = st.ReporterImportedAt := by
  cases s with
  | simple l hh b =>
    simp only [visitStmt]
    exact visitSmalls_imports_eq pc scope _ _ st b (by simpa [noDetectStmt] using h)
  | funcdef l decs name body =>
    simp only [visitStmt]
    exact visitStmts_imports_eq pc (scope ++ [name]) _ _ body (Or.inr (by simp))
  | classdef l name body =>
    simp only [visitStmt]
    exact visitStmts_imports_eq pc (scope ++ [name]) _ _ body (Or.inr (by simp))
  | tryStmt l body hs =>
    have hb : noDetectStmts pc body = true ∨ scope ≠ [] := by
      cases h with
      | inl h => simp [noDetectStmt, Bool.and_eq_true] at h; exact Or.inl h.1
      | inr h => exact Or.inr h
    have hhs : noDetectStmts pc hs = true ∨ scope ≠ [] := by
      cases h with
      | inl h => simp [noDetectStmt, Bool.and_eq_true] at h; exact Or.inl h.2
      | inr h => exact Or.inr h
    simp only [visitStmt]
    have h1 := visitStmts_imports_eq pc scope (line + l + 1) st body hb
    have h2 := visitStmts_imports_eq pc scope (line + l + 1 + stmtsH body)
      (visitStmts pc scope (line + l + 1) st body) hs hhs
    exact ⟨h2.1.trans h1.1, h2.2.trans h1.2⟩
  | handler t a body =>
    have hb : noDetectStmts pc body = true ∨ scope ≠ [] := by
      cases h with
      | inl h => exact Or.inl (by simpa [noDetectStmt] using h)
      | inr h => exact Or.inr h
    simp only [visitStmt]
    cases t with
    | none => exact visitStmts_imports_eq pc scope (line + 1) st body hb
    | some e =>
      by_cases hi : st.ReporterImportedAt.isSome = true <;>
        · have := visitStmts_imports_eq pc scope (line + 1)
            (if st.ReporterImportedAt.isSome then
              { st with calls := st.calls ++ callsInExpr st.ReporterImportedAs line (String.intercalate "." scope) e }
             else st) body hb
          simp [hi] at this ⊢
          exact this
theorem visitStmts_imports_eq (pc : List String) (scope : List String)
    (line : Nat) (st : VState) (l : List Stmt)
    (h : noDetectStmts pc l = true ∨ scope ≠ []) :
    (visitStmts pc scope line st l).ReporterImportedAs = st.ReporterImportedAs ∧
    (visitStmts pc scope line st l).ReporterImportedAt = st.ReporterImportedAt := by
  cases l with
  | nil => simp [visitStmts]
  | cons s rest =>
    have hh : noDetectStmt pc s = true ∨ scope ≠ [] := by
      cases h with
      | inl h => simp [noDetectStmts, Bool.and_eq_true] at h; exact Or.inl h.1
      | inr h => exact Or.inr h
    have ht : noDetectStmts pc rest = true ∨ scope ≠ [] := by
      cases h with
      | inl h => simp [noDetectStmts, Bool.and_eq_true] at h; exact Or.inl h.2
      | inr h => exact Or.inr h
    have h1 := visitStmt_imports_eq pc scope line st s hh
    have h2 := visitStmts_imports_eq pc scope (line + stmtH s)
      (visitStmt pc scope line st s) rest ht
    simp only [visitStmts]
    exact ⟨h2.1.trans h1.1, h2.2.trans h1.2⟩
end

/-- One small statement only ever appends to the recorded calls. -/
theorem visitSmall_calls_mono (pc : List String) (scope : List String)
    (line endLine : Nat) (st : VState) (s : SmallStmt) (c : ReporterCall)
    (hc : c ∈ st.calls) : c ∈ (visitSmall pc scope line endLine st s).calls := by
  cases s with
  | importNames ns => by_cases he : scope.isEmpty <;> simp [visitSmall, he, hc]
  | importFrom dots module aliases =>
    by_cases he : scope.isEmpty
    · by_cases hm : matchesPackageImport pc module = true <;>
        simp [visitSmall, he, hm, checkAlias_calls, hc]
    · simp [visitSmall, he, hc]
  | exprStmt e =>
    by_cases hi : st.ReporterImportedAt.isSome <;> simp [visitSmall, hi, hc]
  | passStmt => simpa [visitSmall] using hc
  | opaqueSmall t => simpa [visitSmall] using hc

/-- A simple statement line only ever appends to the recorded calls. -/
theorem visitSmalls_calls_mono (pc : List String) (scope : List String)
    (line endLine : Nat) (st : VState) (b : List SmallStmt) (c : ReporterCall)
    (hc : c ∈ st.calls) : c ∈ (visitSmalls pc scope line endLine st b).calls := by
  induction b generalizing st with
  | nil => simpa [visitSmalls] using hc
  | cons s rest ih =>
    simp only [visitSmalls]
    exact ih _ (visitSmall_calls_mono pc scope line endLine st s c hc)

/- The visitor only ever appends to the recorded calls. -/
mutual
theorem visitStmt_calls_mono (pc : List String) (scope : List String)
    (line : Nat) (st : VState) (s : Stmt) (c : ReporterCall)
    (hc : c ∈ st.calls) : c ∈ (visitStmt pc scope line st s).calls := by
  cases s with
  | simple l hh b =>
    simp only [visitStmt]
    exact visitSmalls_calls_mono pc scope _ _ st b c hc
  | funcdef l decs name body =>
    simp only [visitStmt]
    exact visitStmts_calls_mono pc (scope ++ [name]) _ _ body c (by simp [hc])
  | classdef l name body =>
    simp only [visitStmt]
    exact visitStmts_calls_mono pc (scope ++ [name]) _ _ body c hc
  | tryStmt l body hs =>
    simp only [visitStmt]
    exact visitStmts_calls_mono pc scope _ _ hs c
      (visitStmts_calls_mono pc scope _ _ body c hc)
  | handler t a body =>
    simp only [visitStmt]
    cases t with
    | none => exact visitStmts_calls_mono pc scope _ _ body c hc
    | some e =>
      refine visitStmts_calls_mono pc scope _ _ body c ?_
      by_cases hi : st.ReporterImportedAt.isSome <;> simp [hi, hc]
theorem visitStmts_calls_mono (pc : List String) (scope : List String)
    (line : Nat) (st : VState) (l : List Stmt) (c : ReporterCall)
    (hc : c ∈ st.calls) : c ∈ (visitStmts pc scope line st l).calls := by
  cases l with
  | nil => simpa [visitStmts] using hc
  | cons s rest =>
    simp only [visitStmts]
    exact visitStmts_calls_mono pc scope _ _ rest c
      (visitStmt_calls_mono pc scope line st s c hc)
end

/-- Visiting the synthesized reporter call statement at module scope records
exactly one Call Record of its kind when the reporter import has already
been detected and the statement was built with the detected binding. -/
theorem visit_reporterCallStmt (pc : List String) (line : Nat) (st : VState)
    (a k : String) (hsome : st.ReporterImportedAt.isSome = true)
    (ha : a = st.ReporterImportedAs) :
    visitStmt pc [] line st (reporterCallStmt a k) =
      { st with calls := st.calls ++ [⟨k, line, ""⟩] } := by
  subst ha
  simp [reporterCallStmt, visitStmt, visitSmalls, visitSmall, hsome,
    callsInExpr, callsInExprList, String.intercalate]

/-- Members of `insertAt` are the inserted element or members of the
original list. -/
theorem mem_insertAt (s c : Stmt) (l : List Stmt) (n : Nat) (h : s ∈ insertAt n c l) :
    s = c ∨ s ∈ l := by
  simp only [insertAt, List.mem_append, List.mem_cons] at h
  rcases h with h | h | h
  · exact Or.inr (List.mem_of_mem_take h)
  · exact Or.inl h
  · exact Or.inr (List.mem_of_mem_drop h)

/-- The synthesized reporter import is a pure import line. -/
theorem reporterImportStmt_naked (pc pc2 : List String) (obj : String) :
    (match reporterImportStmt pc2 obj with
     | .simple _ _ b => b.all smallIsImport || b.all (fun x => !isReporterImportFrom pc x)
     | s => noDetectStmt pc s) = true := by
  simp [reporterImportStmt, smallIsImport]

/-- Inserting the synthesized reporter import anywhere preserves
`nakedReporterImportsOnly`. -/
theorem nakedReporterImportsOnly_insert (m : PyModule) (pc pc2 : List String) (obj : String)
    (n : Nat) (hd : Nat) (h : nakedReporterImportsOnly pc m = true) :
    nakedReporterImportsOnly pc ⟨hd, insertAt n (reporterImportStmt pc2 obj) m.body⟩ = true := by
  simp only [nakedReporterImportsOnly, List.all_eq_true] at h ⊢
  intro s hs
  rcases mem_insertAt s _ m.body n hs with hc | hmem
  · subst hc; exact reporterImportStmt_naked pc pc2 obj
  · exact h s hmem

/-- After the last import statement of a module whose detectable reporter
imports are all naked and direct, no detecting reporter import-from is
reachable at module scope. -/
theorem noDetect_after_lastImport (pc : List String) (m : PyModule) (i : Nat)
    (hnaked : nakedReporterImportsOnly pc m = true) (hlast : lastImportIdx m.body = some i) :
    noDetectStmts pc (m.body.drop (i + 1)) = true := by
  refine noDetectStmts_of_mem pc _ (fun s hs => ?_)
  have hmem : s ∈ m.body := List.mem_of_mem_drop hs
  have hdrop := lastImportIdx_drop m.body i hlast s hs
  simp only [nakedReporterImportsOnly, List.all_eq_true] at hnaked
  have hp := hnaked s hmem
  cases s with
  | simple l hh b =>
    simp only [matchesImport] at hdrop
    simp only [Bool.or_eq_true] at hp
    cases hp with
    | inl hp => rw [hp] at hdrop; cases hdrop
    | inr hp => simpa [noDetectStmt] using hp
  | funcdef l decs name body => simpa using hp
  | classdef l name body => simpa using hp
  | tryStmt l body hs2 => simpa using hp
  | handler t a body => simpa using hp

/-- Inserting the synthesized reporter call right after the last import
statement of a module with only naked imports produces a module on which the
visitor records that call: the detected-import state at the insertion point
already agrees with the final state, because no detection event can occur
after the last naked import. -/
theorem getCalls_after_insert (pc : List String) (k : String) (m1 : PyModule) (i : Nat)
    (hnaked : nakedReporterImportsOnly pc m1 = true)
    (hlast : lastImportIdx m1.body = some i)
    (hsome : (visitModule pc m1).ReporterImportedAt.isSome = true) :
    (getCalls pc k
      ⟨m1.header,
       insertAt (i + 1) (reporterCallStmt (visitModule pc m1).ReporterImportedAs k) m1.body⟩).isEmpty
      = false := by
  have hpost : noDetectStmts pc (m1.body.drop (i + 1)) = true :=
    noDetect_after_lastImport pc m1 i hnaked hlast
  have hsplit : m1.body = m1.body.take (i + 1) ++ m1.body.drop (i + 1) :=
    (List.take_append_drop _ _).symm
  have h1 : visitModule pc m1 =
      visitStmts pc [] (m1.header + 1 + stmtsH (m1.body.take (i + 1)))
        (visitStmts pc [] (m1.header + 1) initVState (m1.body.take (i + 1)))
        (m1.body.drop (i + 1)) := by
    conv_lhs => rw [visitModule, hsplit]
    rw [visitStmts_append]
  have heq := visitStmts_imports_eq pc []
    (m1.header + 1 + stmtsH (m1.body.take (i + 1)))
    (visitStmts pc [] (m1.header + 1) initVState (m1.body.take (i + 1)))
    (m1.body.drop (i + 1)) (Or.inl hpost)
  have hsomeA :
      (visitStmts pc [] (m1.header + 1) initVState (m1.body.take (i + 1))).ReporterImportedAt.isSome
        = true := by
    rw [← heq.2, ← h1]; exact hsome
  have hmid := visit_reporterCallStmt pc (m1.header + 1 + stmtsH (m1.body.take (i + 1)))
    (visitStmts pc [] (m1.header + 1) initVState (m1.body.take (i + 1)))
    (visitModule pc m1).ReporterImportedAs k hsomeA (by rw [h1]; exact heq.1)
  have h2 : visitModule pc
      ⟨m1.header,
       insertAt (i + 1) (reporterCallStmt (visitModule pc m1).ReporterImportedAs k) m1.body⟩ =
      visitStmts pc []
        (m1.header + 1 + stmtsH (m1.body.take (i + 1)) +
          stmtH (reporterCallStmt (visitModule pc m1).ReporterImportedAs k))
        (visitStmt pc [] (m1.header + 1 + stmtsH (m1.body.take (i + 1)))
          (visitStmts pc [] (m1.header + 1) initVState (m1.body.take (i + 1)))
          (reporterCallStmt (visitModule pc m1).ReporterImportedAs k))
        (m1.body.drop (i + 1)) := by
    rw [visitModule]
    show visitStmts pc [] (m1.header + 1) initVState
      (m1.body.take (i + 1) ++
        reporterCallStmt (visitModule pc m1).ReporterImportedAs k :: m1.body.drop (i + 1)) = _
    rw [visitStmts_append]
    simp only [visitStmts]
  have hrec : (⟨k, m1.header + 1 + stmtsH (m1.body.take (i + 1)), ""⟩ : ReporterCall) ∈
      (visitModule pc
        ⟨m1.header,
         insertAt (i + 1) (reporterCallStmt (visitModule pc m1).ReporterImportedAs k) m1.body⟩).calls := by
    rw [h2]
    refine visitStmts_calls_mono pc [] _ _ _ _ ?_
    rw [hmid]
    simp
  have hne : getCalls pc k
      ⟨m1.header,
       insertAt (i + 1) (reporterCallStmt (visitModule pc m1).ReporterImportedAs k) m1.body⟩ ≠ [] :=
    List.ne_nil_of_mem (List.mem_filter.mpr ⟨hrec, by simp⟩)
  cases hfil : (getCalls pc k
      ⟨m1.header,
       insertAt (i + 1) (reporterCallStmt (visitModule pc m1).ReporterImportedAs k) m1.body⟩).isEmpty with
  | false => rfl
  | true => exact absurd (List.isEmpty_iff.mp hfil) hne

/-- The import transformer preserves `nakedReporterImportsOnly`. -/
theorem nakedReporterImportsOnly_transform (pc : List String) (obj : String) (m : PyModule)
    (h : nakedReporterImportsOnly pc m = true) :
    nakedReporterImportsOnly pc (importReporterTransform pc obj m) = true := by
  unfold importReporterTransform
  cases hli : lastImportIdx m.body with
  | none =>
    show nakedReporterImportsOnly pc
      ⟨m.header, insertAt 0 (reporterImportStmt pc obj) m.body⟩ = true
    exact nakedReporterImportsOnly_insert m pc pc obj 0 m.header h
  | some i => exact nakedReporterImportsOnly_insert m pc pc obj (i + 1) m.header h

/-- C3 (amended): add-import is idempotent — whenever it succeeds, running
it again on its output is a silent no-op returning the same tree — and
add-call with the same kind is idempotent on every module all of whose
module-scope reporter imports (import-from statements on which the
visitor's detection can fire) sit in direct, imports-only statement lines
of the module body (`nakedReporterImportsOnly`); every other import-from,
for example a non-reporter import inside a try block, is unconstrained.
Without that proviso the second application can duplicate the call, see
the counterexample. -/
theorem c3_add_operations_idempotent :
    (∀ (pc : List String) (obj : String) (m m₁ : PyModule),
       addReporterImportM pc obj m = .ok m₁ →
       addReporterImportM pc obj m₁ = .ok m₁)
    ∧ (∀ (pc : List String) (obj k : String) (m m₂ : PyModule),
       nakedReporterImportsOnly pc m = true →
       addCallM pc obj k m = .ok m₂ →
       addCallM pc obj k m₂ = .ok m₂) := by
  have himport : ∀ (pc : List String) (obj : String) (m m₁ : PyModule),
      addReporterImportM pc obj m = .ok m₁ →
      isReporterImported (visitModule pc m₁) = true ∧
        (m₁ = m ∨ m₁ = importReporterTransform pc obj m) := by
    intro pc obj m m₁ h
    by_cases himp : isReporterImported (visitModule pc m) = true
    · rw [addReporterImportM, if_pos himp] at h
      cases h
      exact ⟨himp, Or.inl rfl⟩
    · rw [addReporterImportM, if_neg himp] at h
      simp only at h
      by_cases hchk :
          ((visitModule pc (importReporterTransform pc obj m)).ReporterImportedAs == ""
            || (visitModule pc (importReporterTransform pc obj m)).ReporterImportedAt.isNone) = true
      · rw [if_pos hchk] at h; cases h
      · rw [if_neg hchk] at h
        cases h
        simp only [Bool.or_eq_true, not_or] at hchk
        refine ⟨?_, Or.inr rfl⟩
        simp only [isReporterImported, Bool.and_eq_true]
        constructor
        · cases hat : (visitModule pc (importReporterTransform pc obj m)).ReporterImportedAt with
          | none => exact absurd (by simp [hat]) hchk.2
          | some v => simp
        · simpa [bne] using hchk.1
  constructor
  · intro pc obj m m₁ h
    have h1 := (himport pc obj m m₁ h).1
    rw [addReporterImportM, if_pos h1]
  · intro pc obj k m m₂ hnaked h
    by_cases hge : (getCalls pc k m).isEmpty = true
    · rw [addCallM, if_pos hge] at h
      simp only at h
      cases hens : (if isReporterImported (visitModule pc m) = true then Except.ok m
                    else addReporterImportM pc obj m) with
      | error e => rw [hens] at h; cases h
      | ok m1 =>
        rw [hens] at h
        simp only at h
        have hm1 : isReporterImported (visitModule pc m1) = true ∧
            nakedReporterImportsOnly pc m1 = true := by
          by_cases himp : isReporterImported (visitModule pc m) = true
          · rw [if_pos himp] at hens; cases hens; exact ⟨himp, hnaked⟩
          · rw [if_neg himp] at hens
            have hh := himport pc obj m m1 hens
            refine ⟨hh.1, ?_⟩
            rcases hh.2 with rfl | rfl
            · exact hnaked
            · exact nakedReporterImportsOnly_transform pc obj m hnaked
        cases hli : lastImportIdx m1.body with
        | none => rw [hli] at h; cases h
        | some i =>
          rw [hli] at h
          cases h
          have hsome : (visitModule pc m1).ReporterImportedAt.isSome = true := by
            have := hm1.1
            simp only [isReporterImported, Bool.and_eq_true] at this
            exact this.1
          have hfalse := getCalls_after_insert pc k m1 i hm1.2 hli hsome
          rw [addCallM, hfalse]
          simp
    · rw [addCallM, if_neg hge] at h
      cases h
      rw [addCallM, if_neg hge]

/-- The try-except adder preserves the `error_report`-statement predicate of
every statement: simple statement lines pass through unchanged and compound
statements keep their constructor. -/
theorem isErr_teAddStmt (b x impAs : String) (linenos funcScope : List Nat)
    (line : Nat) (s : Stmt) :
    isErrorReportStmt b x (teAddStmt impAs linenos funcScope line s) = isErrorReportStmt b x s := by
  cases s with
  | simple l h bb => rfl
  | funcdef l decs n body => rfl
  | classdef l n body => rfl
  | tryStmt l body hs => rfl
  | handler t a body =>
    simp only [teAddStmt]
    by_cases hg : teGuard linenos funcScope = true <;> simp [hg, isErrorReportStmt]

/-- The try-except adder leaves the count of direct `error_report`
statements of a statement list unchanged. -/
theorem countErr_teAddStmts (b x impAs : String) (linenos funcScope : List Nat)
    (line : Nat) (body : List Stmt) :
    countErr b x (teAddStmts impAs linenos funcScope line body) = countErr b x body := by
  induction body generalizing line with
  | nil => rfl
  | cons s rest ih =>
    simp only [teAddStmts, countErr, List.countP_cons] at *
    rw [isErr_teAddStmt, ih]

/-- A statement list has an `error_report` statement exactly when its count
is positive. -/
theorem any_err_iff_countErr_pos (b x : String) (l : List Stmt) :
    l.any (isErrorReportStmt b x) = true ↔ 0 < countErr b x l := by
  rw [List.any_eq_true, countErr, List.countP_pos_iff]

/-- The synthesized `error_report` statement satisfies its own matcher. -/
theorem isErr_errorReportStmt (impAs x : String) :
    isErrorReportStmt impAs x (errorReportStmt impAs x) = true := by
  simp [isErrorReportStmt, errorReportStmt]

/-- C5 (amended): on every except handler whose innermost enclosing function
definition starts at one of the supplied line numbers (the transformer's
guard: top of the function-scope stack), the wrap-except transformer binds
an exception name — synthesizing `e` when the handler had none — and leaves
the handler body with `max 1 n` `error_report` statements for that name,
where `n` is the body's previous count: exactly one when none was present,
and no duplicate when one (or more) already was.  Re-applying the
transformer to the already-wrapped handler adds no further call.  (The claim
as stated quantifies over every handler lexically inside a targeted
function at any depth and promises exactly one call unconditionally; both
parts fail on the code, see the counterexample.) -/
theorem c5_wrap_except_ensures (impAs : String) (linenos funcScope : List Nat)
    (line line2 : Nat) (t : Option Expr) (a : Option String) (body : List Stmt)
    (hguard : teGuard linenos funcScope = true) :
    handlerAsnameOf (teAddStmt impAs linenos funcScope line (.handler t a body)) =
      some (a.getD "e") ∧
    handlerTypeOf (teAddStmt impAs linenos funcScope line (.handler t a body)) =
      some (t.getD (.name "BaseException")) ∧
    handlerErrCount impAs (a.getD "e")
        (teAddStmt impAs linenos funcScope line (.handler t a body)) =
      max 1 (countErr impAs (a.getD "e") body) ∧
    handlerErrCount impAs (a.getD "e")
        (teAddStmt impAs linenos funcScope line2
          (teAddStmt impAs linenos funcScope line (.handler t a body))) =
      handlerErrCount impAs (a.getD "e")
        (teAddStmt impAs linenos funcScope line (.handler t a body)) := by
  have hcnt := countErr_teAddStmts impAs (a.getD "e") impAs linenos funcScope (line + 1) body
  by_cases hany :
      (teAddStmts impAs linenos funcScope (line + 1) body).any
        (isErrorReportStmt impAs (a.getD "e")) = true
  · have hpos : 0 < countErr impAs (a.getD "e") body := by
      rw [← hcnt]
      exact (any_err_iff_countErr_pos _ _ _).mp hany
    have hres : teAddStmt impAs linenos funcScope line (.handler t a body) =
        .handler (some (t.getD (.name "BaseException"))) (some (a.getD "e"))
          (teAddStmts impAs linenos funcScope (line + 1) body) := by
      simp [teAddStmt, hguard, hany]
    rw [hres]
    refine ⟨rfl, rfl, ?_, ?_⟩
    · show countErr impAs (a.getD "e") (teAddStmts impAs linenos funcScope (line + 1) body) = _
      rw [hcnt, Nat.max_eq_right hpos]
    · have hcnt2 := countErr_teAddStmts impAs (a.getD "e") impAs linenos funcScope (line2 + 1)
        (teAddStmts impAs linenos funcScope (line + 1) body)
      have hany2 :
          (teAddStmts impAs linenos funcScope (line2 + 1)
            (teAddStmts impAs linenos funcScope (line + 1) body)).any
            (isErrorReportStmt impAs (a.getD "e")) = true := by
        rw [any_err_iff_countErr_pos, hcnt2, hcnt]
        exact hpos
      have hres2 : teAddStmt impAs linenos funcScope line2
          (.handler (some (t.getD (.name "BaseException"))) (some (a.getD "e"))
            (teAddStmts impAs linenos funcScope (line + 1) body)) =
          .handler (some (t.getD (.name "BaseException"))) (some (a.getD "e"))
            (teAddStmts impAs linenos funcScope (line2 + 1)
              (teAddStmts impAs linenos funcScope (line + 1) body)) := by
        simp [teAddStmt, hguard, hany2]
      rw [hres2]
      show countErr impAs (a.getD "e") _ = countErr impAs (a.getD "e") _
      rw [hcnt2]
  · have hzero : countErr impAs (a.getD "e") body = 0 := by
      rw [← hcnt]
      by_contra hne
      exact hany ((any_err_iff_countErr_pos _ _ _).mpr (Nat.pos_of_ne_zero hne))
    have hres : teAddStmt impAs linenos funcScope line (.handler t a body) =
        .handler (some (t.getD (.name "BaseException"))) (some (a.getD "e"))
          (errorReportStmt impAs (a.getD "e") ::
            teAddStmts impAs linenos funcScope (line + 1) body) := by
      simp [teAddStmt, hguard, hany]
    have hone : countErr impAs (a.getD "e")
        (errorReportStmt impAs (a.getD "e") ::
          teAddStmts impAs linenos funcScope (line + 1) body) = 1 := by
      rw [countErr, List.countP_cons]
      show countErr impAs (a.getD "e") (teAddStmts impAs linenos funcScope (line + 1) body) +
        (if isErrorReportStmt impAs (a.getD "e") (errorReportStmt impAs (a.getD "e")) = true
         then 1 else 0) = 1
      rw [hcnt, hzero, isErr_errorReportStmt]
      simp
    rw [hres]
    refine ⟨rfl, rfl, ?_, ?_⟩
    · show countErr impAs (a.getD "e") _ = _
      rw [hone, hzero]
      simp
    · have hcnt2 := countErr_teAddStmts impAs (a.getD "e") impAs linenos funcScope (line2 + 1)
        (errorReportStmt impAs (a.getD "e") ::
          teAddStmts impAs linenos funcScope (line + 1) body)
      have hany2 :
          (teAddStmts impAs linenos funcScope (line2 + 1)
            (errorReportStmt impAs (a.getD "e") ::
              teAddStmts impAs linenos funcScope (line + 1) body)).any
            (isErrorReportStmt impAs (a.getD "e")) = true := by
        rw [any_err_iff_countErr_pos, hcnt2, hone]
        exact Nat.one_pos
      have hres2 : teAddStmt impAs linenos funcScope line2
          (.handler (some (t.getD (.name "BaseException"))) (some (a.getD "e"))
            (errorReportStmt impAs (a.getD "e") ::
              teAddStmts impAs linenos funcScope (line + 1) body)) =
          .handler (some (t.getD (.name "BaseException"))) (some (a.getD "e"))
            (teAddStmts impAs linenos funcScope (line2 + 1)
              (errorReportStmt impAs (a.getD "e") ::
                teAddStmts impAs linenos funcScope (line + 1) body)) := by
        simp [teAddStmt, hguard, hany2]
      rw [hres2]
      show countErr impAs (a.getD "e") _ = countErr impAs (a.getD "e") _
      rw [hcnt2]

/-- C9: a bare `except:` handler whose innermost enclosing function is
targeted (the transformer's guard) is rewritten so that its matched
exception type becomes `BaseException` and it binds the synthesized name
`e` — the handler becomes `except BaseException as e:`. -/
theorem c9_bare_except_base_exception (impAs : String) (linenos funcScope : List Nat)
    (line : Nat) (body : List Stmt) (hguard : teGuard linenos funcScope = true) :
    handlerTypeOf (teAddStmt impAs linenos funcScope line (.handler none none body)) =
      some (.name "BaseException") ∧
    handlerAsnameOf (teAddStmt impAs linenos funcScope line (.handler none none body)) =
      some "e" := by
  constructor <;> simp [teAddStmt, hguard, handlerTypeOf, handlerAsnameOf]

/-- The guard of both try-except transformers fails when no enclosing
function is targeted. -/
theorem teGuard_eq_false (linenos funcScope : List Nat)
    (h : ∀ x ∈ funcScope, ¬ x ∈ linenos) : teGuard linenos funcScope = false := by
  unfold teGuard
  cases hl : funcScope.getLast? with
  | none => rfl
  | some s =>
    have hs : s ∈ funcScope := List.mem_of_mem_getLast? hl
    simpa using h s hs

/- Frame property of the try-except adder: a subtree containing no targeted
function definition, reached with no targeted enclosing function, is
returned unchanged. -/
mutual
theorem teAddStmt_frame (impAs : String) (linenos funcScope : List Nat) (line : Nat)
    (s : Stmt) (hd : ∀ d ∈ defLinesStmt line s, ¬ d ∈ linenos)
    (hs : ∀ x ∈ funcScope, ¬ x ∈ linenos) :
    teAddStmt impAs linenos funcScope line s = s := by
  cases s with
  | simple l h b => rfl
  | funcdef l decs name body =>
    have hd0 : ¬ (line + l + decs.length) ∈ linenos := by
      refine hd _ ?_
      simp [defLinesStmt]
    have hscope : ∀ x ∈ funcScope ++ [line + l + decs.length], ¬ x ∈ linenos := by
      intro x hx
      rcases List.mem_append.mp hx with hx | hx
      · exact hs x hx
      · simp at hx; subst hx; exact hd0
    have hbody : ∀ d ∈ defLinesStmts (line + l + decs.length + 1) body, ¬ d ∈ linenos := by
      intro d hdm
      refine hd d ?_
      simp [defLinesStmt, hdm]
    simp only [teAddStmt]
    rw [teAddStmts_frame impAs linenos _ _ body hbody hscope]
  | classdef l name body =>
    have hbody : ∀ d ∈ defLinesStmts (line + l + 1) body, ¬ d ∈ linenos := by
      intro d hdm
      exact hd d (by simpa [defLinesStmt] using hdm)
    simp only [teAddStmt]
    rw [teAddStmts_frame impAs linenos funcScope _ body hbody hs]
  | tryStmt l body hs2 =>
    have hbody : ∀ d ∈ defLinesStmts (line + l + 1) body, ¬ d ∈ linenos := by
      intro d hdm
      refine hd d ?_
      simp [defLinesStmt, hdm]
    have hhs : ∀ d ∈ defLinesStmts (line + l + 1 + stmtsH body) hs2, ¬ d ∈ linenos := by
      intro d hdm
      refine hd d ?_
      simp [defLinesStmt, hdm]
    simp only [teAddStmt]
    rw [teAddStmts_frame impAs linenos funcScope _ body hbody hs,
      teAddStmts_frame impAs linenos funcScope _ hs2 hhs hs]
  | handler t a body =>
    have hbody : ∀ d ∈ defLinesStmts (line + 1) body, ¬ d ∈ linenos := by
      intro d hdm
      exact hd d (by simpa [defLinesStmt] using hdm)
    have hg : teGuard linenos funcScope = false := teGuard_eq_false linenos funcScope hs
    simp only [teAddStmt, hg]
    rw [teAddStmts_frame impAs linenos funcScope _ body hbody hs]
    simp
theorem teAddStmts_frame (impAs : String) (linenos funcScope : List Nat) (line : Nat)
    (l : List Stmt) (hd : ∀ d ∈ defLinesStmts line l, ¬ d ∈ linenos)
    (hs : ∀ x ∈ funcScope, ¬ x ∈ linenos) :
    teAddStmts impAs linenos funcScope line l = l := by
  cases l with
  | nil => rfl
  | cons s rest =>
    have h1 : ∀ d ∈ defLinesStmt line s, ¬ d ∈ linenos := by
      intro d hdm
      refine hd d ?_
      simp [defLinesStmts, hdm]
    have h2 : ∀ d ∈ defLinesStmts (line + stmtH s) rest, ¬ d ∈ linenos := by
      intro d hdm
      refine hd d ?_
      simp [defLinesStmts, hdm]
    simp only [teAddStmts]
    rw [teAddStmt_frame impAs linenos funcScope line s h1 hs,
      teAddStmts_frame impAs linenos funcScope _ rest h2 hs]
end

/- Frame property of the try-except remover, in the same form. -/
mutual
theorem teRemStmt_frame (impAs : String) (linenos funcScope : List Nat) (line : Nat)
    (s : Stmt) (hd : ∀ d ∈ defLinesStmt line s, ¬ d ∈ linenos)
    (hs : ∀ x ∈ funcScope, ¬ x ∈ linenos) :
    teRemStmt impAs linenos funcScope line s = s := by
  cases s with
  | simple l h b => rfl
  | funcdef l decs name body =>
    have hd0 : ¬ (line + l + decs.length) ∈ linenos := by
      refine hd _ ?_
      simp [defLinesStmt]
    have hscope : ∀ x ∈ funcScope ++ [line + l + decs.length], ¬ x ∈ linenos := by
      intro x hx
      rcases List.mem_append.mp hx with hx | hx
      · exact hs x hx
      · simp at hx; subst hx; exact hd0
    have hbody : ∀ d ∈ defLinesStmts (line + l + decs.length + 1) body, ¬ d ∈ linenos := by
      intro d hdm
      refine hd d ?_
      simp [defLinesStmt, hdm]
    simp only [teRemStmt]
    rw [teRemStmts_frame impAs linenos _ _ body hbody hscope]
  | classdef l name body =>
    have hbody : ∀ d ∈ defLinesStmts (line + l + 1) body, ¬ d ∈ linenos := by
      intro d hdm
      exact hd d (by simpa [defLinesStmt] using hdm)
    simp only [teRemStmt]
    rw [teRemStmts_frame impAs linenos funcScope _ body hbody hs]
  | tryStmt l body hs2 =>
    have hbody : ∀ d ∈ defLinesStmts (line + l + 1) body, ¬ d ∈ linenos := by
      intro d hdm
      refine hd d ?_
      simp [defLinesStmt, hdm]
    have hhs : ∀ d ∈ defLinesStmts (line + l + 1 + stmtsH body) hs2, ¬ d ∈ linenos := by
      intro d hdm
      refine hd d ?_
      simp [defLinesStmt, hdm]
    simp only [teRemStmt]
    rw [teRemStmts_frame impAs linenos funcScope _ body hbody hs,
      teRemStmts_frame impAs linenos funcScope _ hs2 hhs hs]
  | handler t a body =>
    have hbody : ∀ d ∈ defLinesStmts (line + 1) body, ¬ d ∈ linenos := by
      intro d hdm
      exact hd d (by simpa [defLinesStmt] using hdm)
    have hg : teGuard linenos funcScope = false := teGuard_eq_false linenos funcScope hs
    simp only [teRemStmt, hg]
    rw [teRemStmts_frame impAs linenos funcScope _ body hbody hs]
    simp
theorem teRemStmts_frame (impAs : String) (linenos funcScope : List Nat) (line : Nat)
    (l : List Stmt) (hd : ∀ d ∈ defLinesStmts line l, ¬ d ∈ linenos)
    (hs : ∀ x ∈ funcScope, ¬ x ∈ linenos) :
    teRemStmts impAs linenos funcScope line l = l := by
  cases l with
  | nil => rfl
  | cons s rest =>
    have h1 : ∀ d ∈ defLinesStmt line s, ¬ d ∈ linenos := by
      intro d hdm
      refine hd d ?_
      simp [defLinesStmts, hdm]
    have h2 : ∀ d ∈ defLinesStmts (line + stmtH s) rest, ¬ d ∈ linenos := by
      intro d hdm
      refine hd d ?_
      simp [defLinesStmts, hdm]
    simp only [teRemStmts]
    rw [teRemStmt_frame impAs linenos funcScope line s h1 hs,
      teRemStmts_frame impAs linenos funcScope _ rest h2 hs]
end

/-- C10 (amended): both the wrap-except and the unwrap-except transformer
return an except handler completely unchanged whenever no enclosing function
is targeted (no member of the function-scope stack is a supplied line
number) and, additionally, the handler's own subtree contains no function
definition starting at a supplied line number.  Without the subtree proviso
a handler outside every targeted function — a module-top-level handler in
particular — can still change, because a targeted function may be defined
inside its body; see the counterexample. -/
theorem c10_untargeted_handler_unchanged (impAs : String) (linenos funcScope : List Nat)
    (line : Nat) (t : Option Expr) (a : Option String) (body : List Stmt)
    (hscope : ∀ x ∈ funcScope, ¬ x ∈ linenos)
    (hsub : ∀ d ∈ defLinesStmt line (.handler t a body), ¬ d ∈ linenos) :
    teAddStmt impAs linenos funcScope line (.handler t a body) = .handler t a body ∧
    teRemStmt impAs linenos funcScope line (.handler t a body) = .handler t a body :=
  ⟨teAddStmt_frame impAs linenos funcScope line _ hsub hscope,
   teRemStmt_frame impAs linenos funcScope line _ hsub hscope⟩

/-- C2 (amended): the import transformer inserts the reporter import with
its first line equal to the end line of the last top-level import statement
plus one; when the module has no top-level import statement, the import
becomes the first statement of the module body — which is line 1 exactly
when the module has no header (leading comment/blank) lines, and line
`header + 1` in general, not unconditionally line 1 as the claim states
(see the counterexample with a leading comment line). -/
theorem c2_import_placement :
    (∀ (pc : List String) (obj : String) (m : PyModule) (i : Nat),
       wfModule m = true → lastImportIdx m.body = some i →
       stmtStartLine (importReporterTransform pc obj m) (i + 1) = stmtEndLine m i + 1)
    ∧ (∀ (pc : List String) (obj : String) (m : PyModule),
       lastImportIdx m.body = none →
       (importReporterTransform pc obj m).body = reporterImportStmt pc obj :: m.body ∧
       stmtStartLine (importReporterTransform pc obj m) 0 = m.header + 1) := by
  constructor
  · intro pc obj m i hwf hlast
    have hlt : i < m.body.length := lastImportIdx_lt _ _ hlast
    have hlen : (m.body.take (i + 1)).length = i + 1 := by
      simp [List.length_take]
      omega
    have hpos : 1 ≤ stmtH (m.body.getD i (.simple 0 1 [])) := by
      have hmem : m.body.getD i (.simple 0 1 []) ∈ m.body := by
        rw [List.getD_eq_getElem m.body _ hlt]
        exact List.getElem_mem hlt
      exact wfStmt_stmtH_pos _ (wfStmts_mem m.body hwf _ hmem)
    have htr : importReporterTransform pc obj m =
        ⟨m.header, insertAt (i + 1) (reporterImportStmt pc obj) m.body⟩ := by
      rw [importReporterTransform, hlast]
    rw [htr]
    have hget := getD_append_len (m.body.take (i + 1)) (m.body.drop (i + 1))
      (reporterImportStmt pc obj) (.simple 0 1 [])
    rw [hlen] at hget
    have htake := List.take_left (m.body.take (i + 1))
      (reporterImportStmt pc obj :: m.body.drop (i + 1))
    rw [hlen] at htake
    have hbody : insertAt (i + 1) (reporterImportStmt pc obj) m.body =
        m.body.take (i + 1) ++ reporterImportStmt pc obj :: m.body.drop (i + 1) := rfl
    simp only [stmtStartLine, blockLine, hbody, htake, hget]
    have hsucc := stmtsH_take_succ m.body i hlt
    simp only [stmtEndLine, blockLine, reporterImportStmt, stmtLeading]
    omega
  · intro pc obj m hlast
    have htr : importReporterTransform pc obj m =
        ⟨m.header, reporterImportStmt pc obj :: m.body⟩ := by
      rw [importReporterTransform, hlast]
    rw [htr]
    exact ⟨rfl, by simp [stmtStartLine, blockLine, stmtsH, reporterImportStmt, stmtLeading, List.getD]⟩

/-- Shared leading run of an extended list with its own base. -/
theorem commonLead_append_right (ca t : List String) : commonLead (ca ++ t) ca = ca := by
  induction ca with
  | nil => cases t <;> rfl
  | cons a ca ih => simp [commonLead, ih]

/-- Lists with different heads share no leading run. -/
theorem commonLead_ne_heads (s r : List String) (h : s.head? ≠ r.head?) :
    commonLead s r = [] := by
  cases s with
  | nil => cases r <;> rfl
  | cons a as =>
    cases r with
    | nil => rfl
    | cons b bs =>
      have hab : a ≠ b := by simpa using h
      simp [commonLead, hab]

/-- Shared leading run of two extensions of a common base whose remainders
start differently. -/
theorem commonLead_append_both (ca s r : List String) (h : s.head? ≠ r.head?) :
    commonLead (ca ++ s) (ca ++ r) = ca := by
  induction ca with
  | nil => simpa using commonLead_ne_heads s r h
  | cons a ca ih => simp [commonLead, ih]

/-- Relative path from a base directory to a path below it. -/
theorem relpathParts_append (ca t : List String) (h : t ≠ []) :
    relpathParts (ca ++ t) ca = t := by
  unfold relpathParts
  rw [commonLead_append_right]
  simp [List.drop_left, List.isEmpty_iff, h]

/-- One more dot. -/
theorem dotsString_succ (n : Nat) : dotsString n ++ "." = dotsString (n + 1) := by
  show (⟨List.replicate n '.' ++ ['.']⟩ : String) = ⟨List.replicate (n + 1) '.'⟩
  exact congrArg String.mk (List.replicate_succ' ..).symm

/-- Intercalation of a single segment. -/
theorem intercalate_single (a : String) : String.intercalate "." [a] = a := by
  cases a with
  | mk data => simp [String.intercalate, String.intercalate.go]

/-- C6: in relative mode the computed import path is the run of as many dots
as the target file has path components below the common ancestor of target
file and reporter file, followed by the dotted path from that ancestor to
the reporter module (directories, then the reporter file's base name with
its extension stripped); and two files in the same directory yield a single
dot followed by only the reporter's base name.  Paths are normalized
component lists; the remainders below the ancestor are nonempty, start with
different components (so the ancestor is exactly the common path), and are
not the bare current-directory path. -/
theorem c6_relative_import_path :
    (∀ (ca s r : List String), s ≠ [] → r ≠ [] → s.head? ≠ r.head? →
       s ≠ ["."] → r ≠ ["."] →
       relativeImportPath (ca ++ s) (ca ++ r) =
         dotsString s.length ++
           String.intercalate "." (r.dropLast ++ [splitextBase (r.getLast?.getD "")]))
    ∧ (∀ (d : List String) (f g : String), f ≠ g → f ≠ "." → g ≠ "." →
       relativeImportPath (d ++ [f]) (d ++ [g]) = "." ++ splitextBase g) := by
  have main : ∀ (ca s r : List String), s ≠ [] → r ≠ [] → s.head? ≠ r.head? →
      s ≠ ["."] → r ≠ ["."] →
      relativeImportPath (ca ++ s) (ca ++ r) =
        dotsString s.length ++
          String.intercalate "." (r.dropLast ++ [splitextBase (r.getLast?.getD "")]) := by
    intro ca s r hs hr hheads hsdot hrdot
    simp only [relativeImportPath]
    rw [commonLead_append_both ca s r hheads,
      relpathParts_append ca s hs, relpathParts_append ca r hr]
    simp only [pathParts, if_neg hsdot, if_neg hrdot]
    have hlen : s.length - 1 + 1 = s.length :=
      Nat.succ_pred_eq_of_pos (List.length_pos.mpr hs)
    conv_rhs => rw [← hlen, ← dotsString_succ]
  refine ⟨main, ?_⟩
  intro d f g hfg hf hg
  have h1 := main d [f] [g] (by simp) (by simp) (by simpa using hfg)
    (by simpa using hf) (by simpa using hg)
  rw [h1]
  show dotsString 1 ++ String.intercalate "." [splitextBase g] = _
  rw [intercalate_single]
  rfl

/-- C7: in absolute mode the computed import path is the repository
directory's base name followed by the dotted repository-to-reporter path
with the `.py` extension stripped; and on the empty file with path
`pkg.report` and binding `reporter`, add-import succeeds and produces a
module whose single (hence first) statement is the reporter import, whose
source text is exactly `from pkg.report import reporter`. -/
theorem c7_absolute_import_path :
    (∀ (repo rel : List String), rel ≠ [] → rel ≠ ["."] →
       absoluteImportPath repo (repo ++ rel) =
         repo.getLast?.getD "" ++ "." ++
           String.intercalate "." (rel.dropLast ++ [splitextBase (rel.getLast?.getD "")]))
    ∧ (addReporterImportM pcPkgReport "reporter" ⟨0, []⟩ =
         .ok ⟨0, [reporterImportStmt pcPkgReport "reporter"]⟩
       ∧ reporterImportCode pcPkgReport "reporter" = "from pkg.report import reporter") := by
  refine ⟨?_, by constructor <;> rfl⟩
  intro repo rel hrel hreldot
  simp only [absoluteImportPath]
  rw [relpathParts_append repo rel hrel]
  simp only [pathParts, if_neg hreldot]

/-- C8: both line-validated operations raise before transforming anything.
`operations.add_decorators` raises a `GenerateDecoratorError` naming the
submodule path and the offending line whenever some supplied line number is
not a current decorator-candidate line, and `operations.remove_decorators`
raises likewise whenever some supplied line number is not among the
currently listed decorator lines of the requested kind; the error result is
produced instead of (never after) a write, and it carries the first
offending line number in caller order. -/
theorem c8_invalid_lineno_raises :
    (∀ (pc : List String) (obj decType path : String) (linenos : List Nat)
       (m : PyModule) (l : Nat),
       l ∈ linenos → ¬ l ∈ (decoratorCandidates pc decType m).map (fun c => c.lineno) →
       ∃ l0, l0 ∈ linenos ∧
         ¬ l0 ∈ (decoratorCandidates pc decType m).map (fun c => c.lineno) ∧
         addDecoratorsOp pc obj decType path linenos m =
           .error ("Non-candidate source code: submodule_path=" ++ path ++
             ", lineno=" ++ toString l0))
    ∧ (∀ (pc : List String) (decType path : String) (linenos : List Nat)
       (m : PyModule) (l : Nat),
       l ∈ linenos → ¬ l ∈ listDecoratorLinenos pc decType m →
       ∃ l0, l0 ∈ linenos ∧ ¬ l0 ∈ listDecoratorLinenos pc decType m ∧
         removeDecoratorsOp pc decType path linenos m =
           .error ("Could not undecorate invalid code at: submodule_path=" ++ path ++
             ", lineno=" ++ toString l0)) := by
  constructor
  · intro pc obj decType path linenos m l hl hnot
    have hp : (fun x =>
        !(((decoratorCandidates pc decType m).map (fun c => c.lineno)).contains x)) l = true := by
      simpa using hnot
    have hsome : (linenos.find? (fun x =>
        !(((decoratorCandidates pc decType m).map (fun c => c.lineno)).contains x))).isSome := by
      rw [List.find?_isSome]
      exact ⟨l, hl, hp⟩
    obtain ⟨l0, hfind⟩ := Option.isSome_iff_exists.mp hsome
    refine ⟨l0, List.mem_of_find?_eq_some hfind, ?_, ?_⟩
    · have := List.find?_some hfind
      simpa using this
    · simp only [addDecoratorsOp]
      rw [hfind]
  · intro pc decType path linenos m l hl hnot
    have hp : (fun x => !((listDecoratorLinenos pc decType m).contains x)) l = true := by
      simpa using hnot
    have hsome : (linenos.find? (fun x =>
        !((listDecoratorLinenos pc decType m).contains x))).isSome := by
      rw [List.find?_isSome]
      exact ⟨l, hl, hp⟩
    obtain ⟨l0, hfind⟩ := Option.isSome_iff_exists.mp hsome
    refine ⟨l0, List.mem_of_find?_eq_some hfind, ?_, ?_⟩
    · have := List.find?_some hfind
      simpa using this
    · simp only [removeDecoratorsOp]
      rw [hfind]

/-- C1: the decoration round trip fails on the code.  On the file with the
reporter import on line 1 and an undecorated `def f` on line 2 (a
decorator-candidate line), `manager.add_decorators("record_call", [2])`
prepends the decorator — which occupies line 2 and moves the `def` line to
3 — and the immediately following
`manager.remove_decorators("record_call", [2])` is an identity: the remover
matches functions by their current `def` line (3), never the supplied line
2, so the decorator list is not restored (`[1]` decorators instead of the
original `[0]`).  Even the `operations.remove_decorators` entry point,
which validates the supplied line against the listed decorator lines
(`[2]`), then removes nothing, contradicting the repository's own
`test_operations.test_decorator_add_remove`. -/
theorem c1_decoration_roundtrip_fails :
    mgrAddDecorators pcPkgReport "reporter" "record_call" [2] exRound = .ok exRoundDecorated ∧
    mgrRemoveDecorators pcPkgReport "record_call" [2] exRoundDecorated = exRoundDecorated ∧
    listDecoratorLinenos pcPkgReport "record_call" exRoundDecorated = [2] ∧
    removeDecoratorsOp pcPkgReport "record_call" "a_package/cli.py" [2] exRoundDecorated =
      .ok exRoundDecorated ∧
    funcDecoratorCounts exRoundDecorated = [1] ∧
    funcDecoratorCounts exRound = [0] :=
  ⟨rfl, rfl, rfl, rfl, rfl, rfl⟩

/-- C2 (counterexample): on a module whose file starts with one header
comment line and contains no import, the transformer inserts the reporter
statement as the first statement of the body, which is line 2, not line 1
as the claim states. -/
theorem c2_line_one_counterexample :
    lastImportIdx exHeaderComment.body = none ∧
    stmtStartLine (importReporterTransform pcPkgReport "reporter" exHeaderComment) 0 = 2 :=
  ⟨rfl, rfl⟩

/-- C3 (counterexample): on the module `import os` / `try:` /
`from pkg.report import reporter` (inside the try) add-call succeeds twice
and the second application is not a no-op: the call is inserted after the
last naked import (line 1), before the line where the visitor detects the
reporter import, so re-analysis does not see it and a second statement is
added — the body grows from 2 to 3 to 4 statements. -/
theorem c3_add_call_counterexample :
    addCallM pcPkgReport "reporter" "system_report" exTryImport = .ok exTryImportOnce ∧
    addCallM pcPkgReport "reporter" "system_report" exTryImportOnce = .ok exTryImportTwice ∧
    exTryImportOnce.body.length = 3 ∧
    exTryImportTwice.body.length = 4 :=
  ⟨rfl, rfl, rfl, rfl⟩

/-- C4: the Visitor does not produce list-valued scope paths.  On the
module-top-level call the produced Call Record carries the joined scope
string `""` (not the empty list), and on the call nested in
`def f: def g:` it carries the string `"f.g"` (not `["f", "g"]`):
`visitors.PackageFileVisitor.visit_Call` passes
`".".join(scope_stack)` to `models.ReporterCall`, whose declared field type
is `List[str]` — the record the claim (and the data model) describe is
never constructed. -/
theorem c4_scope_paths_are_joined_strings :
    getCalls pcPkgReport "system_report" exScopeNested =
      [⟨"system_report", 4, "f.g"⟩] ∧
    getCalls pcPkgReport "system_report" exScopeTop =
      [⟨"system_report", 2, ""⟩] :=
  ⟨rfl, rfl⟩

/-- C5 (counterexample): targeting `def f` (line 1), the handler of the try
inside the nested `def g` — lexically inside the targeted `f` — is left
completely unchanged: it still binds no exception name and contains no
`error_report` statement, because the transformer's guard tests only the
innermost enclosing function (`g`, line 2). -/
theorem c5_nested_function_counterexample :
    teAddModule "reporter" [1] exNestedHandler = exNestedHandler ∧
    handlerAsnames exNestedHandler = [none] ∧
    defLinesStmts 1 exNestedHandler.body = [1, 2] :=
  ⟨rfl, rfl, rfl⟩

/-- C10 (counterexample): the module-top-level except handler of
`exTopHandler` (outside every function) is modified by the wrap-except
transformer targeted at `def f` (line 4), because `f` is defined inside the
handler's body: the handler's subtree changes from an all-unbound handler
list to one whose inner handler is wrapped. -/
theorem c10_top_level_handler_counterexample :
    teAddModule "reporter" [4] exTopHandler = exTopHandlerWrapped ∧
    handlerAsnamesStmts (firstTryHandlers exTopHandlerWrapped) ≠
      handlerAsnamesStmts (firstTryHandlers exTopHandler) ∧
    handlerAsnames exTopHandler = [none, none] :=
  ⟨rfl, by decide, rfl⟩

/-- Closed instance of the C2 theorem: on `exRound` (last import at index
0, ending on line 1) the inserted import lands on line 2, and on the empty
module the import becomes the first statement at line 1. -/
theorem c2_import_placement_witness :
    (wfModule exRound = true ∧ lastImportIdx exRound.body = some 0 ∧
      stmtStartLine (importReporterTransform pcPkgReport "reporter" exRound) (0 + 1) =
        stmtEndLine exRound 0 + 1) ∧
    (lastImportIdx (⟨0, []⟩ : PyModule).body = none ∧
      (importReporterTransform pcPkgReport "reporter" ⟨0, []⟩).body =
        reporterImportStmt pcPkgReport "reporter" :: (⟨0, []⟩ : PyModule).body ∧
      stmtStartLine (importReporterTransform pcPkgReport "reporter" ⟨0, []⟩) 0 =
        (⟨0, []⟩ : PyModule).header + 1) :=
  ⟨⟨by decide, by decide,
    c2_import_placement.1 pcPkgReport "reporter" exRound 0 (by decide) (by decide)⟩,
   ⟨by decide,
    (c2_import_placement.2 pcPkgReport "reporter" ⟨0, []⟩ (by decide)).1,
    (c2_import_placement.2 pcPkgReport "reporter" ⟨0, []⟩ (by decide)).2⟩⟩

/-- Closed instance of the C3 theorem: re-running add-import on its own
output is a no-op, and re-running add-call is a no-op on `exMixedTry`,
where the reporter import is naked and direct while a non-reporter
import-from hides inside a try block — a module the detection-precise
proviso covers. -/
theorem c3_add_operations_idempotent_witness :
    (addReporterImportM pcPkgReport "reporter" ⟨0, [exImport]⟩ = .ok ⟨0, [exImport]⟩) ∧
    (nakedReporterImportsOnly pcPkgReport exMixedTry = true ∧
      addCallM pcPkgReport "reporter" "system_report" exMixedTry = .ok exMixedTryOnce ∧
      addCallM pcPkgReport "reporter" "system_report" exMixedTryOnce = .ok exMixedTryOnce) :=
  ⟨c3_add_operations_idempotent.1 pcPkgReport "reporter" ⟨0, []⟩ ⟨0, [exImport]⟩ (by rfl),
   ⟨by decide, by rfl,
    c3_add_operations_idempotent.2 pcPkgReport "reporter" "system_report" exMixedTry
      exMixedTryOnce (by decide) (by rfl)⟩⟩

/-- Closed instance of the C5 theorem: a guarded bare handler with empty
body gets name `e`, type `BaseException`, exactly one `error_report`
statement, and a second application adds none. -/
theorem c5_wrap_except_ensures_witness :
    teGuard [1] [1] = true ∧
    (handlerAsnameOf (teAddStmt "reporter" [1] [1] 5 (.handler none none [])) = some "e" ∧
     handlerTypeOf (teAddStmt "reporter" [1] [1] 5 (.handler none none [])) =
       some (.name "BaseException") ∧
     handlerErrCount "reporter" "e" (teAddStmt "reporter" [1] [1] 5 (.handler none none [])) =
       max 1 (countErr "reporter" "e" []) ∧
     handlerErrCount "reporter" "e"
         (teAddStmt "reporter" [1] [1] 9
           (teAddStmt "reporter" [1] [1] 5 (.handler none none []))) =
       handlerErrCount "reporter" "e" (teAddStmt "reporter" [1] [1] 5 (.handler none none []))) :=
  ⟨by decide, c5_wrap_except_ensures "reporter" [1] [1] 5 9 none none [] (by decide)⟩

/-- Closed instance of the C6 theorem: `a/b/cli.py` and `a/report.py` give
`..report`, and `a/cli.py` with `a/report.py` give `.report`. -/
theorem c6_relative_import_path_witness :
    ((["b", "cli.py"] : List String) ≠ [] ∧ (["report.py"] : List String) ≠ [] ∧
      (["b", "cli.py"] : List String).head? ≠ (["report.py"] : List String).head? ∧
      (["b", "cli.py"] : List String) ≠ ["."] ∧ (["report.py"] : List String) ≠ ["."]) ∧
    relativeImportPath (["a"] ++ ["b", "cli.py"]) (["a"] ++ ["report.py"]) =
      dotsString (["b", "cli.py"] : List String).length ++
        String.intercalate "."
          ((["report.py"] : List String).dropLast ++
            [splitextBase ((["report.py"] : List String).getLast?.getD "")]) ∧
    relativeImportPath (["a"] ++ ["cli.py"]) (["a"] ++ ["report.py"]) =
      "." ++ splitextBase "report.py" :=
  ⟨⟨by decide, by decide, by decide, by decide, by decide⟩,
   c6_relative_import_path.1 ["a"] ["b", "cli.py"] ["report.py"]
     (by decide) (by decide) (by decide) (by decide) (by decide),
   c6_relative_import_path.2 ["a"] "cli.py" "report.py"
     (by decide) (by decide) (by decide)⟩

/-- Closed instance of the C7 theorem: repository `/home/repo` and reporter
file `/home/repo/sub/report.py` give `repo.sub.report`. -/
theorem c7_absolute_import_path_witness :
    ((["sub", "report.py"] : List String) ≠ [] ∧
      (["sub", "report.py"] : List String) ≠ ["."]) ∧
    absoluteImportPath ["home", "repo"] (["home", "repo"] ++ ["sub", "report.py"]) =
      (["home", "repo"] : List String).getLast?.getD "" ++ "." ++
        String.intercalate "."
          ((["sub", "report.py"] : List String).dropLast ++
            [splitextBase ((["sub", "report.py"] : List String).getLast?.getD "")]) :=
  ⟨⟨by decide, by decide⟩,
   c7_absolute_import_path.1 ["home", "repo"] ["sub", "report.py"] (by decide) (by decide)⟩

/-- Closed instance of the C8 theorem: supplying line 99 against `exRound`
(candidate lines `[2]`) raises the candidate error, and against
`exRoundDecorated` (decorator lines `[2]`) raises the undecorate error. -/
theorem c8_invalid_lineno_raises_witness :
    ((99 : Nat) ∈ [99] ∧
      ¬ (99 : Nat) ∈ (decoratorCandidates pcPkgReport "record_call" exRound).map
        (fun c => c.lineno)) ∧
    (∃ l0, l0 ∈ [99] ∧
      ¬ l0 ∈ (decoratorCandidates pcPkgReport "record_call" exRound).map (fun c => c.lineno) ∧
      addDecoratorsOp pcPkgReport "reporter" "record_call" "a_package/cli.py" [99] exRound =
        .error ("Non-candidate source code: submodule_path=" ++ "a_package/cli.py" ++
          ", lineno=" ++ toString l0)) ∧
    (∃ l0, l0 ∈ [99] ∧ ¬ l0 ∈ listDecoratorLinenos pcPkgReport "record_call" exRoundDecorated ∧
      removeDecoratorsOp pcPkgReport "record_call" "a_package/cli.py" [99] exRoundDecorated =
        .error ("Could not undecorate invalid code at: submodule_path=" ++ "a_package/cli.py" ++
          ", lineno=" ++ toString l0)) :=
  ⟨⟨by decide, by decide⟩,
   c8_invalid_lineno_raises.1 pcPkgReport "reporter" "record_call" "a_package/cli.py" [99]
     exRound 99 (by decide) (by decide),
   c8_invalid_lineno_raises.2 pcPkgReport "record_call" "a_package/cli.py" [99]
     exRoundDecorated 99 (by decide) (by decide)⟩

/-- Closed instance of the C9 theorem: a guarded bare handler becomes
`except BaseException as e:`. -/
theorem c9_bare_except_base_exception_witness :
    teGuard [1] [1] = true ∧
    (handlerTypeOf (teAddStmt "reporter" [1] [1] 7 (.handler none none [])) =
       some (.name "BaseException") ∧
     handlerAsnameOf (teAddStmt "reporter" [1] [1] 7 (.handler none none [])) = some "e") :=
  ⟨by decide, c9_bare_except_base_exception "reporter" [1] [1] 7 [] (by decide)⟩

/-- Closed instance of the C10 theorem: a handler at module scope (empty
function-scope stack) containing no targeted definition is unchanged by
both transformers. -/
theorem c10_untargeted_handler_unchanged_witness :
    ((∀ x ∈ ([] : List Nat), ¬ x ∈ [10]) ∧
      (∀ d ∈ defLinesStmt 1 (.handler none none [.simple 0 1 [.passStmt]]), ¬ d ∈ [10])) ∧
    (teAddStmt "reporter" [10] [] 1 (.handler none none [.simple 0 1 [.passStmt]]) =
       .handler none none [.simple 0 1 [.passStmt]] ∧
     teRemStmt "reporter" [10] [] 1 (.handler none none [.simple 0 1 [.passStmt]]) =
       .handler none none [.simple 0 1 [.passStmt]]) :=
  ⟨⟨by decide, by decide⟩,
   c10_untargeted_handler_unchanged "reporter" [10] [] 1 none none [.simple 0 1 [.passStmt]]
     (by decide) (by decide)⟩
